import Mathlib

/-!
Verification of the deterministic core of the leagle-analyser pipeline
(src/legalHelp/new_main.py and src/legalHelp/comprehensive_analysis.py).

Python strings are modelled as `List Char` (wrapped in `String` at the API
boundary where convenient); all string helpers below are structural
re-implementations of the corresponding Python `str` operations so that every
definition evaluates by kernel reduction.  The `re` regex engine and the
`json` / `datetime` standard-library modules are external collaborators: where
a source function calls them on data that a claim quantifies over, the call is
modelled as an explicit oracle parameter or re-implemented from its documented
behaviour.
-/

namespace Leagle

/-- Whitespace test matching Python `str.strip` / `str.split` (ASCII range). -/
def pyWs (c : Char) : Bool :=
  c = ' ' ∨ c = '\t' ∨ c = '\n' ∨ c = '\r' ∨ c = Char.ofNat 11 ∨ c = Char.ofNat 12

/-- Python `str.strip()` on a character list. -/
def stripL (l : List Char) : List Char :=
  ((l.dropWhile pyWs).reverse.dropWhile pyWs).reverse

/-- Python `str.strip()`. -/
def pyStrip (s : String) : String := ⟨stripL s.data⟩

/-- Python `str.lower()` (ASCII). -/
def lowerL (l : List Char) : List Char := l.map Char.toLower

/-- Substring test: does `needle` occur in `hay`?  Models Python `needle in hay`
for a non-empty needle. -/
def containsL (needle : List Char) : List Char → Bool
  | [] => needle.isPrefixOf []
  | c :: rest => needle.isPrefixOf (c :: rest) || containsL needle rest

/-- Python `needle in hay` on strings (needle non-empty throughout this file). -/
def pyIn (needle hay : String) : Bool := containsL needle.data hay.data

/-- Case-insensitive `needle in hay.lower()` with an already-lowercase needle. -/
def pyInLower (needle hay : String) : Bool := containsL needle.data (lowerL hay.data)

/-- Python `s.endswith(t)`. -/
def pyEndsWith (s t : String) : Bool := t.data.reverse.isPrefixOf s.data.reverse

/-- Number of words of Python `s.split()` (split on whitespace runs, empties
dropped): counts maximal non-whitespace runs. -/
def wordCountL : List Char → Bool → ℕ
  | [], _ => 0
  | c :: rest, inWord =>
    if pyWs c then wordCountL rest false
    else (if inWord then 0 else 1) + wordCountL rest true

/-- Length of Python `s.split()`. -/
def pySplitLen (s : String) : ℕ := wordCountL s.data false

/-- Truthiness of an optional string field coming out of a parsed JSON dict:
`None` and the empty string are falsy, everything else truthy. -/
def pyTruthy : Option String → Bool
  | none => false
  | some s => s ≠ ""

/-- Python `int()` applied to an exact rational: truncation toward zero. -/
def pyInt_rat (q : ℚ) : ℤ := Int.tdiv q.num q.den

/-- Decimal representation of an integer, as Python `str(i)`. -/
def intStr (i : ℤ) : String := Int.repr i

/-! ## Chunker (new_main.py, `sliding_window_chunks`, lines 109-124)

The Python loop

```
start = 0
while start < text_length:
    end = min(start + max_chars, text_length)
    chunk = text[start:end]
    if chunk.strip():
        chunks.append(chunk)
    if end == text_length:
        break
    start += max_chars - overlap
```

is embedded with an explicit fuel parameter: `none` means the loop was still
running after `fuel` iterations, so `∀ fuel, … = none` states that the loop
never exits. -/

/-- Python slice `text[a:b]` on a character list, with the usual clamping and
negative-index-from-the-end semantics. -/
def pySlice (cs : List Char) (a b : ℤ) : List Char :=
  let n : ℤ := cs.length
  let a' := (if a < 0 then max (n + a) 0 else min a n).toNat
  let b' := (if b < 0 then max (n + b) 0 else min b n).toNat
  (cs.take b').drop a'

/-- Loop body of `sliding_window_chunks`; `start` is an integer because the
Python increment `max_chars - overlap` may be negative. -/
def swcLoop (text : List Char) (max_chars overlap : ℤ) :
    ℕ → ℤ → List (List Char) → Option (List (List Char))
  | 0, _, _ => none
  | fuel + 1, start, chunks =>
    if start < (text.length : ℤ) then
      let e := min (start + max_chars) (text.length : ℤ)
      let chunk := pySlice text start e
      let chunks' := if stripL chunk ≠ [] then chunks ++ [chunk] else chunks
      if e = (text.length : ℤ) then some chunks'
      else swcLoop text max_chars overlap fuel (start + max_chars - overlap) chunks'
    else some chunks

/-- `sliding_window_chunks(text, max_chars, overlap)` run for at most `fuel`
loop iterations; `none` = still looping. -/
def sliding_window_chunks (fuel : ℕ) (text : List Char) (max_chars overlap : ℤ) :
    Option (List (List Char)) :=
  swcLoop text max_chars overlap fuel 0 []

/-! ## Risk meter (new_main.py, `summarize_contract`, lines 493-502) -/

/-- Per-clause risk levels as produced by `detect_clause_risk_and_loopholes`. -/
inductive RiskLevel where
  | NONE | LOW | MEDIUM | HIGH
deriving DecidableEq, Repr

/-- The `numeric_map = \x7b"HIGH": 5, "MEDIUM": 3, "LOW": 1, "NONE": 0\x7d`
dictionary of `summarize_contract`. -/
def numeric_map : RiskLevel → ℕ
  | .HIGH => 5
  | .MEDIUM => 3
  | .LOW => 1
  | .NONE => 0

/-- Risk-meter computation of `summarize_contract` (lines 493-502): clause
scores are averaged over `max(len, 1)`, scaled by 10 and capped at 50; global
severities are summed and capped at 50; the final `int(...)` truncates. -/
def risk_meter (clause_risk_levels : List RiskLevel) (global_severities : List ℕ) : ℤ :=
  let clause_scores := clause_risk_levels.map numeric_map
  let avg_clause_score : ℚ := (clause_scores.sum : ℚ) / ((max clause_scores.length 1 : ℕ) : ℚ)
  let total_global_risk : ℕ := global_severities.sum
  let normalized_clause_risk : ℚ := min (avg_clause_score * 10) 50
  let normalized_global_risk : ℕ := min total_global_risk 50
  pyInt_rat (normalized_clause_risk + (normalized_global_risk : ℚ))

/-- Document risk meter as the specification words it: the integer floor of
`min(avg * 10, 50) + min(sum of global severities, 50)` where `avg` is the mean
of the numeric clause scores (0 when there are zero chunks). -/
def risk_meter_spec (clause_risk_levels : List RiskLevel) (global_severities : List ℕ) : ℤ :=
  let avg : ℚ :=
    if clause_risk_levels.length = 0 then 0
    else ((clause_risk_levels.map numeric_map).sum : ℚ) / (clause_risk_levels.length : ℚ)
  ⌊min (avg * 10) 50 + min ((global_severities.sum : ℕ) : ℚ) 50⌋

/-! ## Rule-based risk scanner (new_main.py, `detect_clause_risk_and_loopholes`,
lines 128-171)

The `re` regex engine is an external collaborator; `search p t` models
`re.compile(p, re.IGNORECASE).search(t)`, returning `some m` with the matched
span `m` (`group(0)`) on a hit and `none` on a miss.  The table iteration,
max-weight accumulation, flag recording, loophole capture and final
thresholding are translated from the source. -/

/-- Single-quote character, used by the Python f-strings of the scanner. -/
def squote : String := ⟨[Char.ofNat 39]⟩

/-- One matched-pattern flag record appended by the scanner. -/
structure RiskFlag where
  pattern : String
  severity : String
  description : String
deriving DecidableEq, Repr

/-- The ordered `RISK_KEYWORDS` table of new_main.py (pattern, weight). -/
def RISK_KEYWORDS : List (String × ℕ) :=
  [("\\bwithout\\s+liability\\b", 5),
   ("\\bno\\s+indemnifi", 5),
   ("\\bno\\s+governing\\s+law\\b", 5),
   ("\\bno\\s+termination\\b", 5),
   ("\\bmay\\b", 3),
   ("\\bcould\\b", 3),
   ("\\breasonable\\s+endeavor", 3),
   ("\\bsubject\\s+to\\s+review\\b", 3),
   ("\\bunless\\s+otherwise\\s+agreed\\b", 1),
   ("\\bbest\\s+efforts\\b", 1)]

/-- Loop body of `detect_clause_risk_and_loopholes`: on a match, take the max
of the running score and the weight, append a flag, and record a loophole
snippet for weights ≤ 3. -/
def detectStep (search : String → String → Option String) (clause_text : String)
    (acc : ℕ × List RiskFlag × List String) (pw : String × ℕ) :
    ℕ × List RiskFlag × List String :=
  match search pw.1 clause_text with
  | some m =>
    let label := if pw.2 ≥ 5 then "HIGH" else if pw.2 ≥ 3 then "MEDIUM" else "LOW"
    (max acc.1 pw.2,
     acc.2.1 ++ [⟨pw.1, label, "Matched pattern " ++ squote ++ pw.1 ++ squote⟩],
     acc.2.2 ++ (if pw.2 ≤ 3 then ["Ambiguous phrasing: " ++ squote ++ m ++ squote] else []))
  | none => acc

/-- `detect_clause_risk_and_loopholes(clause_text)`: returns the severity
label, the matched flags and the loophole snippets. -/
def detect_clause_risk_and_loopholes (search : String → String → Option String)
    (clause_text : String) : String × List RiskFlag × List String :=
  let r := RISK_KEYWORDS.foldl (detectStep search clause_text) (0, [], [])
  let severity_label :=
    if r.1 = 0 then "NONE"
    else if r.1 ≤ 1 then "LOW"
    else if r.1 ≤ 3 then "MEDIUM"
    else "HIGH"
  (severity_label, r.2.1, r.2.2)

/-- Concrete search oracle for the C3 witness: the absolute-liability-waiver
pattern (weight 5) and the best-efforts pattern (weight 1) match, nothing
else does. -/
def searchW : String → String → Option String :=
  fun p _ =>
    if p = "\\bwithout\\s+liability\\b" ∨ p = "\\bbest\\s+efforts\\b" then some "match" else none

/-! ## AI JSON payload cleanup and truncation repair
(comprehensive_analysis.py, `parse_ai_json_response`, lines 576-607)

The extracted payload first has every occurrence of the character sequence
`null` rewritten to the quoted sentinel (`json_text.replace('null',
'"Not specified"')` — a plain substring replace), then, if the stripped text
does not end in a closing brace, the truncation repair runs: strip one
trailing comma, append the missing `]` then the missing `\x7d` counts, and
delete commas dangling before a closer. -/

/-- Opening-brace character. -/
def lbraceC : Char := Char.ofNat 123

/-- Closing-brace character. -/
def rbraceC : Char := Char.ofNat 125

/-- Opening-bracket character. -/
def lbrackC : Char := Char.ofNat 91

/-- Closing-bracket character. -/
def rbrackC : Char := Char.ofNat 93

/-- Does the list start with the character `l`? -/
def startsL1 : List Char → Bool
  | c :: _ => c = 'l'
  | [] => false

/-- Does the list start with `ll`? -/
def startsLL : List Char → Bool
  | c :: rest => c = 'l' && startsL1 rest
  | [] => false

/-- Does the list start with `ull`? -/
def startsULL : List Char → Bool
  | c :: rest => c = 'u' && startsLL rest
  | [] => false

/-- Does the list start with `null`? -/
def startsNullB : List Char → Bool
  | c :: rest => c = 'n' && startsULL rest
  | [] => false

/-- Does the character sequence `null` occur anywhere in the list? -/
def hasNull : List Char → Bool
  | [] => false
  | c :: rest => startsNullB (c :: rest) || hasNull rest

/-- Python `json_text.replace('null', '"Not specified"')`: leftmost
non-overlapping occurrences of the 4-character sequence are rewritten,
wherever they occur. -/
def replNull : List Char → List Char
  | 'n' :: 'u' :: 'l' :: 'l' :: rest => "\"Not specified\"".data ++ replNull rest
  | c :: rest => c :: replNull rest
  | [] => []

/-- String-level wrapper for the `null`-token rewrite. -/
def pyReplaceNull (s : String) : String := ⟨replNull s.data⟩

/-- Python `re.sub(r',\s*$', '', t)`: removes one trailing comma together
with the whitespace following it, if the text ends that way. -/
def stripDanglingComma (l : List Char) : List Char :=
  let rev := l.reverse
  let rest := rev.dropWhile pyWs
  match rest with
  | c :: rest' => if c = ',' then rest'.reverse else l
  | [] => l

/-- Is the list whitespace followed by a closing brace or bracket? -/
def isWsThenCloser : List Char → Bool
  | [] => false
  | c :: rest =>
    if c = rbraceC ∨ c = rbrackC then true
    else if pyWs c then isWsThenCloser rest
    else false

/-- Python `re.sub(r',(\s*[\x7d\]])', r'\1', t)`: every comma standing (up to
whitespace) before a closing brace/bracket is deleted.  A single left-to-right
pass of the regex engine deletes exactly the commas whose following text is
whitespace-then-closer, because a match span contains no later comma; this
pointwise form is therefore equivalent and is what we state. -/
def removeTrailingCommasL : List Char → List Char
  | [] => []
  | c :: rest =>
    if c = ',' ∧ isWsThenCloser rest then removeTrailingCommasL rest
    else c :: removeTrailingCommasL rest

/-- Truncation repair of `parse_ai_json_response` (lines 579-605): strip the
payload, strip one dangling comma, count braces and brackets, append the
missing closers (brackets first), then delete commas left before closers. -/
def fix_incomplete_json (s : String) : String :=
  let t0 := stripDanglingComma (stripL s.data)
  let open_braces := t0.count lbraceC
  let close_braces := t0.count rbraceC
  let open_brackets := t0.count lbrackC
  let close_brackets := t0.count rbrackC
  let t1 := if close_brackets < open_brackets
    then t0 ++ List.replicate (open_brackets - close_brackets) rbrackC else t0
  let t2 := if close_braces < open_braces
    then t1 ++ List.replicate (open_braces - close_braces) rbraceC else t1
  ⟨removeTrailingCommasL t2⟩

/-- Truncation repair as the specification words it: strip a trailing dangling
comma from the (stripped) payload, append exactly `count('[') − count(']')`
closing brackets followed by exactly `count('\x7b') − count('\x7d')` closing
braces, then strip the trailing commas left before a closing bracket/brace. -/
def fix_incomplete_json_spec (s : String) : String :=
  let t0 := stripL s.data
  let t1 := match t0.getLast? with
    | some c => if c = ',' then t0.dropLast else t0
    | none => t0
  let missing_brackets := ((t1.count lbrackC : ℤ) - (t1.count rbrackC : ℤ)).toNat
  let missing_braces := ((t1.count lbraceC : ℤ) - (t1.count rbraceC : ℤ)).toNat
  ⟨removeTrailingCommasL
    (t1 ++ List.replicate missing_brackets rbrackC ++ List.replicate missing_braces rbraceC)⟩

/-- Payload cleanup sequence of `parse_ai_json_response`: the `null` rewrite
followed by the truncation repair when the stripped text does not end with a
closing brace. -/
def clean_json_text (s : String) : String :=
  let s1 := pyReplaceNull s
  if ¬ pyEndsWith (pyStrip s1) "\x7d" then fix_incomplete_json s1 else s1

/-! ### JSON well-formedness checker

Modelled from the spec: the external `json.loads` (Python standard library)
accepts the repaired payload; this fuel-indexed recursive-descent checker
captures JSON well-formedness so that "parses successfully" is a statement
about a definition in this file. -/

/-- JSON insignificant whitespace. -/
def jsonWs (c : Char) : Bool := c = ' ' ∨ c = '\t' ∨ c = '\n' ∨ c = '\r'

/-- Drop leading JSON whitespace. -/
def jsonSkipWs (l : List Char) : List Char := l.dropWhile jsonWs

/-- Consume the remainder of a JSON string literal (after the opening quote),
returning the input following the closing quote. -/
def jsonStringRest : List Char → Option (List Char)
  | [] => none
  | c :: rest =>
    if c = '"' then some rest
    else if c = Char.ofNat 92 then
      match rest with
      | _ :: rest' => jsonStringRest rest'
      | [] => none
    else jsonStringRest rest

/-- Consume a JSON number (permissive on the exponent/fraction tail). -/
def jsonNumber : List Char → Option (List Char)
  | [] => none
  | c :: rest =>
    if c.isDigit ∨ c = '-' then
      some ((c :: rest).dropWhile fun d =>
        d.isDigit ∨ d = '-' ∨ d = '+' ∨ d = '.' ∨ d = 'e' ∨ d = 'E')
    else none

/-- Parsing modes of the recursive-descent checker: a value, the items of an
array after `[`, or the members of an object after `\x7b`. -/
inductive JMode where
  | val | arr | obj

/-- Fuel-indexed recursive-descent JSON checker: returns the unconsumed
remainder on success. -/
def jsonRun : ℕ → JMode → List Char → Option (List Char)
  | 0, _, _ => none
  | fuel + 1, .val, cs =>
    match jsonSkipWs cs with
    | [] => none
    | c :: rest =>
      if c = '"' then jsonStringRest rest
      else if c = lbrackC then
        match jsonSkipWs rest with
        | d :: rest' => if d = rbrackC then some rest' else jsonRun fuel .arr (jsonSkipWs rest)
        | [] => none
      else if c = lbraceC then
        match jsonSkipWs rest with
        | d :: rest' => if d = rbraceC then some rest' else jsonRun fuel .obj (jsonSkipWs rest)
        | [] => none
      else if c = 't' then
        if ['r', 'u', 'e'].isPrefixOf rest then some (rest.drop 3) else none
      else if c = 'f' then
        if ['a', 'l', 's', 'e'].isPrefixOf rest then some (rest.drop 4) else none
      else if c = 'n' then
        if ['u', 'l', 'l'].isPrefixOf rest then some (rest.drop 3) else none
      else jsonNumber (c :: rest)
  | fuel + 1, .arr, cs =>
    match jsonRun fuel .val cs with
    | some rest =>
      match jsonSkipWs rest with
      | c :: rest' =>
        if c = ',' then jsonRun fuel .arr rest'
        else if c = rbrackC then some rest'
        else none
      | [] => none
    | none => none
  | fuel + 1, .obj, cs =>
    match jsonSkipWs cs with
    | c :: rest =>
      if c = '"' then
        match jsonStringRest rest with
        | some rest1 =>
          match jsonSkipWs rest1 with
          | d :: rest2 =>
            if d = ':' then
              match jsonRun fuel .val rest2 with
              | some rest3 =>
                match jsonSkipWs rest3 with
                | e :: rest4 =>
                  if e = ',' then jsonRun fuel .obj rest4
                  else if e = rbraceC then some rest4
                  else none
                | [] => none
              | none => none
            else none
          | [] => none
        | none => none
      else none
    | [] => none

/-- A string is well-formed JSON when the checker consumes it entirely. -/
def jsonParses (s : String) : Bool :=
  match jsonRun (s.data.length + 1) .val s.data with
  | some rest => jsonSkipWs rest = []
  | none => false

/-! ## Quality gate (comprehensive_analysis.py, `perform_quality_checks`,
lines 390-535, and the score threshold of `extract_comprehensive_data`,
lines 304-313)

The reconciled contract data is modelled with exactly the fields the seven
checks inspect.  `Option ℤ` fields use `none` for a non-numeric Python value
(failing the `isinstance(v, (int, float))` test); a JSON dict is modelled by
the list of its values where only the values are used. -/

/-- Python `str.lower()` at string level. -/
def lowerS (s : String) : String := ⟨lowerL s.data⟩

/-- A party as inspected by the quality checks. -/
structure QParty where
  name : String := ""
deriving Repr, DecidableEq

/-- A product as inspected by the quality checks (`quantity = none` models a
non-numeric value; an absent key defaults to `0`). -/
structure QProduct where
  name : String := ""
  quantity : Option ℤ := some 0
deriving Repr, DecidableEq

/-- A timeline event as inspected by the quality checks (`event = none` models
an absent `event` key, printed as `Unknown`). -/
structure QEvent where
  date : String := ""
  event : Option String := none
deriving Repr, DecidableEq

/-- A risk item as inspected by the quality checks. -/
structure QRisk where
  riskScore : Option ℤ := some 0
  title : String := ""
deriving Repr, DecidableEq

/-- The financial terms fields inspected by the quality checks. -/
structure QFinancial where
  paymentTerms : String := ""
  totalValue : ℤ := 0
deriving Repr, DecidableEq

/-- The analytics fields inspected by the quality checks; `riskDistribution`
is the list of values of the distribution dict (empty = missing/empty dict,
summing to 0 exactly as `sum(...) if risk_distribution else 0`). -/
structure QAnalytics where
  overallRiskScore : Option ℤ := some 0
  riskDistribution : List ℤ := []
deriving Repr, DecidableEq

/-- The document-structure fields inspected by the quality checks. -/
structure QStructure where
  sections : ℕ := 0
  totalPages : ℤ := 0
deriving Repr, DecidableEq

/-- The reconciled contract data as inspected by `perform_quality_checks`. -/
structure QContractData where
  parties : List QParty := []
  products : List QProduct := []
  financialTerms : QFinancial := {}
  timeline : List QEvent := []
  risks : List QRisk := []
  analytics : QAnalytics := {}
  documentStructure : QStructure := {}
deriving Repr, DecidableEq

/-- The `generic_names` denylist of check 1. -/
def generic_party_names : List String :=
  ["party a", "party b", "party 1", "party 2", "company a", "company b",
   "not specified", "contractor", "client", "supplier", "customer"]

/-- The company-indicator list of check 1. -/
def quality_name_indicators : List String :=
  ["Inc", "LLC", "Ltd", "Corporation", "Company", "Limited", "Corp",
   "Incorporated", "International", "Holdings", "Group"]

/-- The `fragment_indicators` denylist of check 2. -/
def product_fragment_indicators : List String :=
  ["listed in", "as specified", "pursuant to", "will be deemed",
   "shall be", "according to", "in accordance with"]

/-- Printed form of a possibly non-numeric score value (`str(v)`; the exact
text printed for a non-numeric Python value is approximated, no claim
inspects it). -/
def scoreStr : Option ℤ → String
  | some v => intStr v
  | none => "non-numeric"

/-- Check 1 loop body: per-party deduction and issues. -/
def party_item_check (p : QParty) : ℤ × List String :=
  let gen := generic_party_names.any fun g => pyInLower g p.name
  let r1 : ℤ × List String :=
    if gen then (5, ["Generic party name detected: " ++ p.name]) else (0, [])
  let noInd := p.name.data.length > 5
    ∧ ¬ quality_name_indicators.any fun ind => pyIn ind p.name
  let r2 : ℤ × List String :=
    if noInd then (2, ["Party name may not be a proper company name: " ++ p.name]) else (0, [])
  (r1.1 + r2.1, r1.2 ++ r2.2)

/-- Check 1: party information quality (20 points). -/
def party_check (parties : List QParty) : ℤ × List String :=
  let base : ℤ × List String :=
    if parties.length < 2
    then (20 - 10, ["Insufficient parties identified (minimum 2 required)"])
    else (20, [])
  parties.foldl (fun a p => (a.1 - (party_item_check p).1, a.2 ++ (party_item_check p).2)) base

/-- Check 2 loop body: per-product deduction and issues. -/
def product_item_check (p : QProduct) : ℤ × List String :=
  let frag := product_fragment_indicators.any fun f => pyInLower f p.name
  let r1 : ℤ × List String :=
    if frag then (3, ["Product name appears to be text fragment: " ++ p.name]) else (0, [])
  let badq := match p.quantity with
    | none => true
    | some q => q ≤ 0
  let r2 : ℤ × List String :=
    if badq then (2, ["Invalid quantity for product " ++ p.name ++ ": " ++ scoreStr p.quantity])
    else (0, [])
  (r1.1 + r2.1, r1.2 ++ r2.2)

/-- Check 2: product information quality (15 points). -/
def product_check (products : List QProduct) : ℤ × List String :=
  if products.length = 0 then (0, ["No products/services identified"])
  else products.foldl
    (fun a p => (a.1 - (product_item_check p).1, a.2 ++ (product_item_check p).2)) (15, [])

/-- Check 3: financial information quality (15 points). -/
def financial_check (f : QFinancial) : ℤ × List String :=
  let bad1 := f.paymentTerms = ""
    ∨ lowerS f.paymentTerms ∈ ["not specified", "as agreed", "net 30 days"]
  let r1 : ℤ × List String := if bad1 then (5, ["Generic or missing payment terms"]) else (0, [])
  let r2 : ℤ × List String := if f.totalValue = 0 then (5, ["No contract value identified"]) else (0, [])
  (15 - r1.1 - r2.1, r1.2 ++ r2.2)

/-- Check 4 loop body: per-event deduction and issues. -/
def timeline_item_check (e : QEvent) : ℤ × List String :=
  if e.date = "" ∨ lowerS e.date ∈ ["not specified", "n/a", "tbd"]
  then (2, ["Generic or missing date for event: " ++ e.event.getD "Unknown"])
  else (0, [])

/-- Check 4: timeline quality (15 points). -/
def timeline_check (tl : List QEvent) : ℤ × List String :=
  let base : ℤ × List String :=
    if tl.length < 3
    then (15 - 5, ["Insufficient timeline events (minimum 3 recommended)"])
    else (15, [])
  tl.foldl (fun a e => (a.1 - (timeline_item_check e).1, a.2 ++ (timeline_item_check e).2)) base

/-- Check 5 loop body: per-risk deduction and issues. -/
def risk_item_check (r : QRisk) : ℤ × List String :=
  let badScore := match r.riskScore with
    | none => true
    | some v => v < 20 ∨ v > 95
  let r1 : ℤ × List String :=
    if badScore
    then (2, ["Invalid risk score: " ++ scoreStr r.riskScore ++ " (should be 20-95)"])
    else (0, [])
  let r2 : ℤ × List String :=
    if r.title = "" ∨ r.title.data.length < 10
    then (2, ["Risk title too short or missing"])
    else (0, [])
  (r1.1 + r2.1, r1.2 ++ r2.2)

/-- Check 5: risk assessment quality (15 points). -/
def risk_check (risks : List QRisk) : ℤ × List String :=
  let base : ℤ × List String :=
    if risks.length < 3
    then (15 - 5, ["Insufficient risk analysis (minimum 3 risks recommended)"])
    else (15, [])
  risks.foldl (fun a r => (a.1 - (risk_item_check r).1, a.2 ++ (risk_item_check r).2)) base

/-- Check 6: analytics quality (10 points). -/
def analytics_check (a : QAnalytics) (risks : List QRisk) : ℤ × List String :=
  let badOverall := match a.overallRiskScore with
    | none => true
    | some v => v < 20 ∨ v > 95
  let r1 : ℤ × List String :=
    if badOverall then (5, ["Invalid overall risk score: " ++ scoreStr a.overallRiskScore])
    else (0, [])
  let r2 : ℤ × List String :=
    if a.riskDistribution.sum ≠ (risks.length : ℤ)
    then (3, ["Risk distribution doesn" ++ squote ++ "t match actual risk count"])
    else (0, [])
  (10 - r1.1 - r2.1, r1.2 ++ r2.2)

/-- Check 7: document structure quality (10 points). -/
def structure_check (d : QStructure) : ℤ × List String :=
  let r1 : ℤ × List String :=
    if d.sections < 3 then (5, ["Insufficient document sections identified"]) else (0, [])
  let r2 : ℤ × List String :=
    if d.totalPages = 0 then (3, ["Total pages not identified"]) else (0, [])
  (10 - r1.1 - r2.1, r1.2 ++ r2.2)

/-- `perform_quality_checks`: each check deducts `max(0, weight − check_score)`
from 100; the result is clamped into `[0, 100]`; issues accumulate in check
order. -/
def perform_quality_checks (d : QContractData) : ℤ × List String :=
  let c1 := party_check d.parties
  let c2 := product_check d.products
  let c3 := financial_check d.financialTerms
  let c4 := timeline_check d.timeline
  let c5 := risk_check d.risks
  let c6 := analytics_check d.analytics d.risks
  let c7 := structure_check d.documentStructure
  let q : ℤ := 100 - max 0 (20 - c1.1) - max 0 (15 - c2.1) - max 0 (15 - c3.1)
    - max 0 (15 - c4.1) - max 0 (15 - c5.1) - max 0 (10 - c6.1) - max 0 (10 - c7.1)
  (max 0 (min 100 q), c1.2 ++ c2.2 ++ c3.2 ++ c4.2 ++ c5.2 ++ c6.2 ++ c7.2)

/-- The strict quality threshold of `extract_comprehensive_data` (lines
304-313): raise exactly when the quality score is below 70. -/
def quality_gate (d : QContractData) : Except String QContractData :=
  if (perform_quality_checks d).1 < 70
  then .error ("Contract analysis failed quality validation (score: "
    ++ intStr (perform_quality_checks d).1 ++ "/100)")
  else .ok d

/-- C5 counterexample data: one party and a risk scored 150, but every other
check passes. -/
def compensatedDoc : QContractData :=
  { parties := [{ name := "Initech Corporation Inc" }]
    products := [{ name := "Industrial Pump Model X", quantity := some 15000 }]
    financialTerms :=
      { paymentTerms := "Net 45 days with quarterly reconciliation", totalValue := 500000 }
    timeline :=
      [{ date := "2024-01-15", event := some "Contract signing" },
       { date := "2024-06-30", event := some "Mid-term review" },
       { date := "2025-01-15", event := some "Renewal deadline" }]
    risks :=
      [{ riskScore := some 150, title := "Payment default exposure risk" },
       { riskScore := some 50, title := "Termination notice period risk" },
       { riskScore := some 60, title := "Liability cap uncertainty risk" }]
    analytics := { overallRiskScore := some 55, riskDistribution := [1, 1, 1] }
    documentStructure := { sections := 4, totalPages := 12 } }

/-- C5 witness data: the minimal document with one party and one risk scored
150; every other check also fails, so the score drops below 70. -/
def minimalRejectedDoc : QContractData :=
  { parties := [{ name := "Initech Corporation Inc" }]
    risks := [{ riskScore := some 150, title := "Payment default exposure risk" }] }

/-! ## Party reconciliation (comprehensive_analysis.py, `convert_ai_parties`,
lines 719-804)

An input party dict is modelled with the fields the function reads; `isDict =
false` models a non-dict list entry (skipped).  `parse_address_enhanced` only
shapes the `address` sub-record, which no claim inspects; the `location` text
is modelled, the structured address is not. -/

/-- An AI-extracted party candidate. -/
structure AIParty where
  isDict : Bool := true
  legal_name : Option String := none
  common_name : Option String := none
  role : Option String := none
  entity_type : Option String := none
  address : Option String := none
deriving Repr, DecidableEq

/-- The `excluded_placeholders` denylist (lowercase, matched case-insensitively
as substrings). -/
def excluded_placeholders : List String :=
  ["party a", "party b", "party 1", "party 2", "party one", "party two",
   "company a", "company b", "company 1", "company 2", "company one", "company two",
   "not specified", "not available", "to be determined", "tbd", "n/a",
   "first party", "second party", "third party", "contractor", "client",
   "supplier", "customer", "vendor", "buyer", "seller", "licensor", "licensee"]

/-- The legal-entity indicator tokens (matched case-sensitively). -/
def company_indicators : List String :=
  ["Inc", "LLC", "Ltd", "Corporation", "Company", "Limited", "Corp",
   "Incorporated", "International", "Holdings", "Group", "Enterprises",
   "Pte", "Pty", "GmbH", "AG", "SA", "SAS"]

/-- Is the first character an uppercase letter (`name[0].isupper()`)? -/
def headIsUpper (s : String) : Bool :=
  match s.data with
  | c :: _ => c.isUpper
  | [] => false

/-- The `is_valid_name` predicate of `convert_ai_parties`: non-empty, longer
than 3 characters, no placeholder substring (case-insensitive), and either a
company-indicator token or a capitalized multi-word phrase. -/
def is_valid_name (legal_name : String) : Bool :=
  legal_name ≠ ""
  && legal_name.data.length > 3
  && ¬ (excluded_placeholders.any fun p => pyInLower p legal_name)
  && ((company_indicators.any fun ind => pyIn ind legal_name)
      || (headIsUpper legal_name && pySplitLen legal_name ≥ 2))

/-- Python `s.lower().startswith(t)`-style prefix test. -/
def pyStartsWith (s t : String) : Bool := t.data.isPrefixOf s.data

/-- Remove every double-quote and single-quote character
(`.replace('"', '').replace("'", "")`). -/
def removeQuoteChars (l : List Char) : List Char :=
  l.filter fun c => ¬ (c = '"' ∨ c = Char.ofNat 39)

/-- Display-name cleanup of `convert_ai_parties`: strip quotes, then drop a
leading `the ` when the remainder still carries a company suffix. -/
def display_cleanup (display_name : String) : String :=
  let d1 : String := ⟨stripL (removeQuoteChars display_name.data)⟩
  if pyStartsWith (lowerS d1) "the " ∧ d1.data.length > 4 then
    let potential := pyStrip ⟨d1.data.drop 4⟩
    if ["Inc", "LLC", "Ltd", "Corporation", "Company", "Limited"].any
        (fun suf => pyIn suf potential)
    then potential
    else d1
  else d1

/-- A reconciled party record (fields the source populates from the inputs;
constant fields and the structured address are omitted). -/
structure Party where
  id : String
  name : String
  legalName : String
  location : String
  role : String
  entityType : String
deriving Repr, DecidableEq

/-- Loop of `convert_ai_parties` with the running `enumerate` index. -/
def convert_ai_parties_aux : ℕ → List AIParty → List Party
  | _, [] => []
  | i, party :: rest =>
    (if party.isDict ∧ pyTruthy party.legal_name then
      let legal_name := pyStrip (party.legal_name.getD "")
      if is_valid_name legal_name then
        let dn0 := if legal_name ≠ "" then legal_name else pyStrip (party.common_name.getD "")
        let display_name := display_cleanup dn0
        let address_text := party.address.getD ""
        [{ id := "party_" ++ intStr ((i : ℤ) + 1),
           name := display_name,
           legalName := legal_name,
           location := if address_text ≠ "" then address_text else "Address not specified",
           role := party.role.getD "Contract Party",
           entityType := party.entity_type.getD "Corporation" }]
      else []
    else []) ++ convert_ai_parties_aux (i + 1) rest

/-- `convert_ai_parties`: filter candidates through `is_valid_name`; raise
when fewer than 2 survive. -/
def convert_ai_parties (ai_parties : List AIParty) : Except String (List Party) :=
  let parties := convert_ai_parties_aux 0 ai_parties
  if parties.length < 2
  then .error "Insufficient parties identified from AI response - minimum 2 required"
  else .ok parties

/-- The acceptance condition of one candidate, as a Boolean on the input. -/
def party_accepted (p : AIParty) : Bool :=
  p.isDict && pyTruthy p.legal_name && is_valid_name (pyStrip (p.legal_name.getD ""))

/-! ## Risk reconciliation (comprehensive_analysis.py, `convert_ai_risks`,
lines 935-1009)

The `risk_score` JSON field is modelled by `RSField`: absent key, a
non-numeric (string) value, or a numeric value (integers; `int()` acting on a
float is not claim-relevant).  `risk_score and isinstance(risk_score, (int,
float))` is truthiness (non-zero) plus numeric-ness. -/

/-- The `risk_score` field of an AI risk dict. -/
inductive RSField where
  | absent
  | strVal (s : String)
  | numVal (v : ℤ)
deriving Repr, DecidableEq

/-- Python truthiness of the `risk_score` value. -/
def rsTruthy : RSField → Bool
  | .absent => false
  | .strVal s => s ≠ ""
  | .numVal v => v ≠ 0

/-- `isinstance(risk_score, (int, float))`. -/
def rsNumeric : RSField → Bool
  | .numVal _ => true
  | _ => false

/-- The integer value of a numeric `risk_score` (`int(risk_score)`). -/
def rsValue : RSField → ℤ
  | .numVal v => v
  | _ => 0

/-- An AI-extracted risk item. -/
structure AIRisk where
  isDict : Bool := true
  risk_title : Option String := none
  risk_score : RSField := .absent
  category : Option String := none
  impact : Option String := none
  likelihood : Option String := none
  description : Option String := none
  mitigation : Option String := none
deriving Repr, DecidableEq

/-- Python `str.title()` (ASCII): uppercase a letter after a non-letter,
lowercase the rest. -/
def pyTitleAux : Bool → List Char → List Char
  | _, [] => []
  | prevAlpha, c :: cs =>
    (if c.isAlpha then (if prevAlpha then c.toLower else c.toUpper) else c)
      :: pyTitleAux c.isAlpha cs

/-- Python `str.title()`. -/
def pyTitle (s : String) : String := ⟨pyTitleAux false s.data⟩

/-- Category-specific recommendations and mitigation strategies chosen from
the risk title. -/
def risk_recommendations (risk_title : String) : List String × List String :=
  let t := lowerS risk_title
  if pyIn "renewal" t then
    (["Set calendar reminders for renewal dates", "Review contract performance annually",
      "Negotiate renewal terms in advance"],
     ["Automated renewal tracking", "Performance monitoring", "Strategic planning"])
  else if pyIn "payment" t ∨ pyIn "financial" t then
    (["Implement payment tracking system", "Establish credit monitoring",
      "Consider payment guarantees"],
     ["Cash flow management", "Credit assessment", "Financial controls"])
  else if pyIn "intellectual property" t ∨ pyIn "ip" t then
    (["Conduct IP due diligence", "Register trademarks/patents", "Monitor for infringement"],
     ["IP portfolio management", "Legal protection", "Monitoring systems"])
  else if pyIn "termination" t then
    (["Understand termination triggers", "Maintain compliance records", "Plan exit strategies"],
     ["Compliance monitoring", "Documentation", "Contingency planning"])
  else
    (["Monitor " ++ t, "Regular compliance review", "Seek legal advice if needed"],
     ["Regular monitoring", "Legal consultation", "Risk assessment"])

/-- Urgency from the clamped risk score. -/
def risk_urgency (score : ℤ) : String :=
  if score ≥ 80 then "Critical"
  else if score ≥ 60 then "High"
  else if score ≥ 40 then "Medium"
  else "Low"

/-- A reconciled risk record. -/
structure RiskOut where
  id : ℕ
  category : String
  title : String
  description : String
  impact : String
  likelihood : String
  riskScore : ℤ
  urgency : String
  mitigation : String
  recommendations : List String
  mitigationStrategies : List String
deriving Repr, DecidableEq

/-- The error message raised for a missing/invalid risk score. -/
def riskErrMsg (risk : AIRisk) : String :=
  "AI must provide valid risk scores (20-95) for all risks. Missing score for: "
    ++ risk.risk_title.getD "Unknown"

/-- Loop of `convert_ai_risks` with the running `enumerate` index; the first
titled item whose score fails `risk_score and isinstance(...)` raises. -/
def convert_ai_risks_aux : ℕ → List AIRisk → Except String (List RiskOut)
  | _, [] => .ok []
  | i, risk :: rest =>
    if risk.isDict ∧ pyTruthy risk.risk_title then
      if rsTruthy risk.risk_score && rsNumeric risk.risk_score then
        let v := rsValue risk.risk_score
        let score := max 20 (min 95 v)
        let rl := risk_recommendations (risk.risk_title.getD "")
        match convert_ai_risks_aux (i + 1) rest with
        | .ok tail =>
          .ok ({ id := i + 1,
                 category := pyTitle (risk.category.getD "Medium"),
                 title := risk.risk_title.getD "",
                 description := risk.description.getD "Risk identified in contract analysis",
                 impact := pyTitle (risk.impact.getD "Medium"),
                 likelihood := pyTitle (risk.likelihood.getD "Medium"),
                 riskScore := score,
                 urgency := risk_urgency score,
                 mitigation := risk.mitigation.getD
                   ("Monitor and address " ++ risk.risk_title.getD "this risk"),
                 recommendations := rl.1,
                 mitigationStrategies := rl.2 } :: tail)
        | .error e => .error e
      else .error (riskErrMsg risk)
    else convert_ai_risks_aux (i + 1) rest

/-- `convert_ai_risks`: convert every titled item, raising on any
missing/non-numeric/zero score, and raise when no risks survive. -/
def convert_ai_risks (ai_risks : List AIRisk) : Except String (List RiskOut) :=
  match convert_ai_risks_aux 0 ai_risks with
  | .ok risks =>
    if risks.length = 0 then .error "No risks identified from AI response" else .ok risks
  | .error e => .error e

/-- Witness input for C6: two valid parties. -/
def twoPartiesInput : List AIParty :=
  [{ legal_name := some "Acme Corporation Inc" },
   { legal_name := some "Globex Limited" }]

/-- Witness input for C7: a titled risk whose score is a string. -/
def badRiskInput : List AIRisk :=
  [{ risk_title := some "Liability cap risk", risk_score := .strVal "high" }]

/-! ## Expiration-date derivation (comprehensive_analysis.py,
`parse_ai_json_response`, lines 612-631)

The `datetime` standard library is re-implemented on day numbers: `toDays` /
`fromDays` convert between a Gregorian date and its day count (days since
0000-03-01), `parseYmd` models `datetime.strptime(s, "%Y-%m-%d")` (4-digit
year, 1-2-digit month/day, calendar-valid), `formatDay` models
`strftime("%Y-%m-%d")`.  `today` abstracts `datetime.now()` as a day count. -/

/-- Gregorian leap year. -/
def isLeap (y : ℤ) : Bool := (y % 4 = 0 ∧ y % 100 ≠ 0) ∨ y % 400 = 0

/-- Days in a month. -/
def daysInMonth (y m : ℤ) : ℤ :=
  if m = 2 then (if isLeap y then 29 else 28)
  else if m = 4 ∨ m = 6 ∨ m = 9 ∨ m = 11 then 30
  else 31

/-- Day count (days since 0000-03-01) of a Gregorian date. -/
def toDays (ymd : ℤ × ℤ × ℤ) : ℤ :=
  let m := ymd.2.1
  let mp := (m + 9) % 12
  let yp := ymd.1 - mp / 10
  365 * yp + yp.fdiv 4 - yp.fdiv 100 + yp.fdiv 400 + (mp * 306 + 5) / 10 + (ymd.2.2 - 1)

/-- Gregorian date of a day count (inverse of `toDays`). -/
def fromDays (g : ℤ) : ℤ × ℤ × ℤ :=
  let y0 := (10000 * g + 14780).fdiv 3652425
  let ddd0 := g - (365 * y0 + y0.fdiv 4 - y0.fdiv 100 + y0.fdiv 400)
  let y := if ddd0 < 0 then y0 - 1 else y0
  let ddd := g - (365 * y + y.fdiv 4 - y.fdiv 100 + y.fdiv 400)
  let mi := (100 * ddd + 52).fdiv 3060
  let mm := (mi + 2) % 12 + 1
  let yy := y + (mi + 2).fdiv 12
  let dd := ddd - (mi * 306 + 5).fdiv 10 + 1
  (yy, mm, dd)

/-- Digit value of a decimal digit character. -/
def digitVal (c : Char) : ℤ := (c.toNat : ℤ) - 48

/-- Value of a digit string. -/
def parseDigits (l : List Char) : ℤ := l.foldl (fun a c => a * 10 + digitVal c) 0

/-- Are all characters decimal digits? -/
def allDigits (l : List Char) : Bool := l.all Char.isDigit

/-- Python `int(s)` on an already-stripped string: optional sign then
digits. -/
def pyParseInt (s : String) : Option ℤ :=
  match s.data with
  | [] => none
  | c :: rest =>
    if c = '-' then
      if rest ≠ [] ∧ allDigits rest then some (-(parseDigits rest)) else none
    else if c = '+' then
      if rest ≠ [] ∧ allDigits rest then some (parseDigits rest) else none
    else if allDigits (c :: rest) then some (parseDigits (c :: rest))
    else none

/-- Split a character list at dashes. -/
def splitOnDash : List Char → List (List Char)
  | [] => [[]]
  | c :: rest =>
    if c = '-' then [] :: splitOnDash rest
    else match splitOnDash rest with
      | h :: t => (c :: h) :: t
      | [] => [[c]]

/-- `datetime.strptime(s, "%Y-%m-%d")`: exactly 4 year digits, 1-2 month and
day digits, month in 1-12 and day valid for the month. -/
def parseYmd (s : String) : Option (ℤ × ℤ × ℤ) :=
  match splitOnDash s.data with
  | [ys, ms, ds] =>
    if ys.length = 4 ∧ allDigits ys
      ∧ (ms.length = 1 ∨ ms.length = 2) ∧ allDigits ms
      ∧ (ds.length = 1 ∨ ds.length = 2) ∧ allDigits ds then
      let y := parseDigits ys
      let m := parseDigits ms
      let d := parseDigits ds
      if 1 ≤ m ∧ m ≤ 12 ∧ 1 ≤ d ∧ d ≤ daysInMonth y m then some (y, m, d) else none
    else none
  | _ => none

/-- Zero-padded decimal of a natural number. -/
def padNat (width : ℕ) (n : ℕ) : String :=
  let s := Nat.repr n
  ⟨List.replicate (width - s.data.length) '0'⟩ ++ s

/-- `strftime("%Y-%m-%d")` of a date triple. -/
def formatDate (ymd : ℤ × ℤ × ℤ) : String :=
  padNat 4 ymd.1.toNat ++ "-" ++ padNat 2 ymd.2.1.toNat ++ "-" ++ padNat 2 ymd.2.2.toNat

/-- `strftime("%Y-%m-%d")` of a day count. -/
def formatDay (g : ℤ) : String := formatDate (fromDays g)

/-- Python `t.replace("years", "")`. -/
def dropYearsL : List Char → List Char
  | 'y' :: 'e' :: 'a' :: 'r' :: 's' :: rest => dropYearsL rest
  | c :: rest => c :: dropYearsL rest
  | [] => []

/-- `int(str(term_years).replace("years", "").strip())`. -/
def parseTermYears (t : String) : Option ℤ := pyParseInt ⟨stripL (dropYearsL t.data)⟩

/-- The `contract_basics` fields read by the expiration derivation (`none` =
key absent; a JSON `null` has already been rewritten to `"Not specified"`). -/
structure ContractBasics where
  expiration_date : Option String := none
  effective_date : Option String := none
  contract_term_years : Option String := none
deriving Repr, DecidableEq

/-- The expiration-date derivation of `parse_ai_json_response` (lines
612-631), including the final `expiration_date or (now + 365 days)` default:
when the payload lacks (or has a sentinel) expiration date, try
`effective_date + 365 * term_years` days; on parse failure use the sentinel;
if the variable is still falsy at the end, fall back to one year from
`today`. -/
def calc_expiration_date (cb : ContractBasics) (today : ℤ) : String :=
  let e1 : Option String :=
    if ¬ pyTruthy cb.expiration_date ∨ cb.expiration_date = some "Not specified" then
      let ty := cb.contract_term_years.getD "10"
      if pyTruthy cb.effective_date ∧ ty ≠ "" then
        match parseYmd (cb.effective_date.getD ""), parseTermYears ty with
        | some ymd, some yrs => some (formatDay (toDays ymd + 365 * yrs))
        | some _, none => some "Not specified"
        | none, _ => some "Not specified"
      else cb.expiration_date
    else cb.expiration_date
  match e1 with
  | none => formatDay (today + 365)
  | some s => if s = "" then formatDay (today + 365) else s

/-! ## Clause-to-region mapper (comprehensive_analysis.py,
`extract_clause_risk_map`, lines 1828-1921, and
`extract_clause_risk_map_enhanced`, lines 2317-2372)

`json.loads` of the fenced payload and the `re.findall` text extractions are
external collaborators, modelled as inputs: `ai_data = none` when no fenced
JSON block parses, `textMatches = none` when the `CLAUSE RISK MAPPING:` marker
is absent (`some ms` = the regex matches), `detailedMatches` likewise for the
`DETAILED CLAUSE ANALYSIS:` marker. -/

/-- One entry of the AI payload's `clause_risk_mapping` array, with the
`.get` defaults baked in. -/
structure CRIn where
  clause : String := ""
  risk_level : String := "medium"
  page : ℤ := 1
  description : String := ""
deriving Repr, DecidableEq

/-- One entry of the AI payload's `risk_factors` array as read here. -/
structure RFIn where
  title : String := ""
  category : String := "medium"
deriving Repr, DecidableEq

/-- The parsed fenced-JSON payload fields read by the mapper. -/
structure AIData where
  clause_risk_mapping : List CRIn := []
  risk_factors : List RFIn := []
deriving Repr, DecidableEq

/-- A percentage bounding box. -/
structure MapPos where
  top : ℤ
  left : ℤ
  width : ℤ
  height : ℤ
deriving Repr, DecidableEq

/-- One clause-risk-map entry. -/
structure CREntry where
  clause : String
  riskLevel : String
  page : ℤ
  position : MapPos
  description : String
deriving Repr, DecidableEq

/-- Python `title[:50]`. -/
def pyTake50 (s : String) : String := ⟨s.data.take 50⟩

/-- Route 1: entries from the explicit `clause_risk_mapping` array (clause
text longer than 3 after strip). -/
def crmFromJson : ℕ → List CRIn → List CREntry
  | _, [] => []
  | i, cr :: rest =>
    (if cr.clause ≠ "" ∧ (stripL cr.clause.data).length > 3 then
      [{ clause := pyStrip cr.clause,
         riskLevel := lowerS (pyStrip cr.risk_level),
         page := cr.page,
         position := { top := 10 + (i : ℤ) * 15, left := 5, width := 90, height := 8 },
         description := if cr.description ≠ "" then cr.description
           else "Risk identified in: " ++ pyStrip cr.clause }]
    else []) ++ crmFromJson (i + 1) rest

/-- Route 1b: entries from the `CLAUSE RISK MAPPING:` text section matches
(clause, risk level, page). -/
def crmFromText (ms : List (String × String × ℤ)) : List CREntry :=
  ms.filterMap fun m =>
    if pyStrip m.1 ≠ "" ∧ (stripL m.1.data).length > 5 then
      some { clause := pyStrip m.1,
             riskLevel := lowerS (pyStrip m.2.1),
             page := m.2.2,
             position := { top := 10, left := 5, width := 90, height := 8 },
             description := "Risk identified in: " ++ pyStrip m.1 }
    else none

/-- Route 2 (fallback inside the base extractor): entries derived from the
top-5 `risk_factors`, with the synthetic page `min(i+1, total_pages)`. -/
def crmFromRisks : ℕ → ℤ → List RFIn → List CREntry
  | _, _, [] => []
  | i, total_pages, rf :: rest =>
    (if rf.title ≠ "" then
      [{ clause := "Risk Area " ++ intStr ((i : ℤ) + 1) ++ ": " ++ pyTake50 rf.title,
         riskLevel := lowerS rf.category,
         page := min ((i : ℤ) + 1) total_pages,
         position := { top := 10 + (i : ℤ) * 15, left := 5, width := 90, height := 8 },
         description := "Risk area: " ++ rf.title }]
    else []) ++ crmFromRisks (i + 1) total_pages rest

/-- `extract_clause_risk_map`: explicit JSON mapping, else text-section
mapping, else top-5-risk-derived mapping. -/
def extract_clause_risk_map (ai_data : Option AIData)
    (textMatches : Option (List (String × String × ℤ))) (total_pages : ℤ) : List CREntry :=
  let m1 := match ai_data with
    | some d => crmFromJson 0 d.clause_risk_mapping
    | none => []
  let m2 := if m1 = [] then
      (match textMatches with
       | some ms => crmFromText ms
       | none => m1)
    else m1
  if m2 = [] then
    (match ai_data with
     | some d => crmFromRisks 0 total_pages (d.risk_factors.take 5)
     | none => m2)
  else m2

/-- The fixed section-heading list of the enhanced mapper. -/
def DOC_SECTIONS : List String :=
  ["Introduction", "Definitions", "Terms and Conditions", "Obligations",
   "Payment Terms", "Termination", "Miscellaneous"]

/-- Section-derived entries: one per heading found (case-insensitively) in the
text, `high` risk for the obligation/payment/termination sections. -/
def crmFromSections : ℕ → ℤ → String → List String → List CREntry
  | _, _, _, [] => []
  | i, total_pages, full_text, sec :: rest =>
    (if pyIn (lowerS sec) (lowerS full_text) then
      [{ clause := "Section: " ++ sec,
         riskLevel := if sec = "Obligations" ∨ sec = "Payment Terms" ∨ sec = "Termination"
           then "high" else "medium",
         page := min ((i : ℤ) + 1) total_pages,
         position := { top := 10 + (i : ℤ) * 12, left := 5, width := 90, height := 8 },
         description := "Contract section: " ++ sec }]
    else []) ++ crmFromSections (i + 1) total_pages full_text rest

/-- Appender for the `DETAILED CLAUSE ANALYSIS:` matches: entries with a new
clause text are appended to the base mapping. -/
def crmAddDetailed (ms : List (String × String × ℤ)) (base : List CREntry) : List CREntry :=
  ms.foldl (fun acc m =>
    if acc.any (fun c => c.clause = pyStrip m.1) then acc
    else acc ++ [{ clause := pyStrip m.1,
                   riskLevel := lowerS (pyStrip m.2.1),
                   page := m.2.2,
                   position := { top := 15 + (acc.length : ℤ) * 12, left := 5, width := 90,
                                 height := 6 },
                   description := "Enhanced analysis: " ++ pyStrip m.1 }]) base

/-- `extract_clause_risk_map_enhanced`: the base mapping, section-derived
entries when the base is empty, then the detailed-analysis additions. -/
def extract_clause_risk_map_enhanced (ai_data : Option AIData)
    (textMatches detailedMatches : Option (List (String × String × ℤ)))
    (full_text : String) (total_pages : ℤ) : List CREntry :=
  let base := extract_clause_risk_map ai_data textMatches total_pages
  let base2 := if base = [] then crmFromSections 0 total_pages full_text DOC_SECTIONS else base
  match detailedMatches with
  | some ms => crmAddDetailed ms base2
  | none => base2

/-- C9 counterexample payload: an empty explicit mapping array together with a
titled risk factor. -/
def c9AiData : AIData :=
  { clause_risk_mapping := [],
    risk_factors := [{ title := "Payment default risk", category := "High" }] }

/-- Entries derived from the explicit `clause_risk_mapping` array of the
parsed payload (empty when no payload parsed). -/
def crmJsonOf (ai_data : Option AIData) : List CREntry :=
  match ai_data with
  | some d => crmFromJson 0 d.clause_risk_mapping
  | none => []

/-- Entries derived from the `CLAUSE RISK MAPPING:` text section (empty when
the marker is absent). -/
def crmTextOf (tm : Option (List (String × String × ℤ))) : List CREntry :=
  match tm with
  | some ms => crmFromText ms
  | none => []

/-- Entries derived from the top-5 risk factors (empty when no payload
parsed). -/
def crmRisksOf (ai_data : Option AIData) (total_pages : ℤ) : List CREntry :=
  match ai_data with
  | some d => crmFromRisks 0 total_pages (d.risk_factors.take 5)
  | none => []

/-- Python `int()` of a nonnegative exact rational is its floor. -/
theorem pyInt_rat_eq_floor (q : ℚ) (hq : 0 ≤ q) : pyInt_rat q = ⌊q⌋ := by
  have hnum : 0 ≤ q.num := Rat.num_nonneg.mpr hq
  have hden : (0 : ℤ) ≤ (q.den : ℤ) := Int.ofNat_nonneg _
  rw [pyInt_rat, Int.tdiv_eq_ediv hnum hden, Rat.floor_def]

/-- C1: the document risk meter computed by `summarize_contract` equals the
integer floor of `min(avg_clause_numeric_score * 10, 50) + min(sum of global
flag severities, 50)` with the `\x7bHIGH:5, MEDIUM:3, LOW:1, NONE:0\x7d`
mapping and average 0 for zero chunks; in particular `[HIGH,HIGH,HIGH]` with no
global flags gives 50, zero chunks with global severities summing to 60 give
50, and clause average 3 with global severity sum 10 gives 40. -/
theorem c1_risk_meter_spec :
    (∀ (levels : List RiskLevel) (globals : List ℕ),
        risk_meter levels globals = risk_meter_spec levels globals)
    ∧ risk_meter [.HIGH, .HIGH, .HIGH] [] = 50
    ∧ risk_meter [] [20, 15, 15, 10] = 50
    ∧ risk_meter [.MEDIUM] [10] = 40 := by
  have main : ∀ (levels : List RiskLevel) (globals : List ℕ),
      risk_meter levels globals = risk_meter_spec levels globals := by
    intro levels globals
    simp only [risk_meter, risk_meter_spec]
    have hgc : ((min globals.sum 50 : ℕ) : ℚ) = min ((globals.sum : ℕ) : ℚ) 50 := by
      push_cast
      rfl
    have havg : ((levels.map numeric_map).sum : ℚ) /
          ((max (levels.map numeric_map).length 1 : ℕ) : ℚ) =
        (if levels.length = 0 then (0 : ℚ)
          else ((levels.map numeric_map).sum : ℚ) / (levels.length : ℚ)) := by
      rcases eq_or_ne levels.length 0 with h | h
      · rcases List.length_eq_zero.mp h with rfl
        simp
      · have hmax : max (levels.map numeric_map).length 1 = levels.length := by
          rw [List.length_map]
          omega
        rw [hmax, if_neg h]
    rw [hgc, havg]
    set avg : ℚ := (if levels.length = 0 then (0 : ℚ)
      else ((levels.map numeric_map).sum : ℚ) / (levels.length : ℚ)) with havgdef
    have havg0 : 0 ≤ avg := by
      rw [havgdef]
      split
      · exact le_refl 0
      · exact div_nonneg (Nat.cast_nonneg _) (Nat.cast_nonneg _)
    have h0 : (0 : ℚ) ≤ min (avg * 10) 50 + min ((globals.sum : ℕ) : ℚ) 50 := by
      have h1 : (0 : ℚ) ≤ min (avg * 10) 50 :=
        le_min (by positivity) (by norm_num)
      have h2 : (0 : ℚ) ≤ min ((globals.sum : ℕ) : ℚ) 50 :=
        le_min (Nat.cast_nonneg _) (by norm_num)
      linarith
    rw [pyInt_rat_eq_floor _ h0]
  refine ⟨main, ?_, ?_, ?_⟩
  · rw [main]
    have : risk_meter_spec [.HIGH, .HIGH, .HIGH] [] = ⌊((50 : ℤ) : ℚ)⌋ := by
      simp only [risk_meter_spec, numeric_map, List.map, List.sum]
      norm_num
    rw [this, Int.floor_intCast]
  · rw [main]
    have : risk_meter_spec [] [20, 15, 15, 10] = ⌊((50 : ℤ) : ℚ)⌋ := by
      simp only [risk_meter_spec, List.map, List.sum]
      norm_num
    rw [this, Int.floor_intCast]
  · rw [main]
    have : risk_meter_spec [.MEDIUM] [10] = ⌊((40 : ℤ) : ℚ)⌋ := by
      simp only [risk_meter_spec, numeric_map, List.map, List.sum]
      norm_num
    rw [this, Int.floor_intCast]

/-- C2: `sliding_window_chunks` does NOT terminate for every parameter pair:
with `max_chars = overlap = 1` and the two-character text `"ab"`, the loop
state repeats (`start` stays 0, `end` stays 1 ≠ 2) and the loop never exits,
for any number of iterations.  This contradicts the claim and the docstring
"Ensures no infinite loop". -/
theorem c2_sliding_window_loops_forever :
    ∀ fuel : ℕ, sliding_window_chunks fuel ['a', 'b'] 1 1 = none := by
  have key : ∀ (fuel : ℕ) (chunks : List (List Char)),
      swcLoop ['a', 'b'] 1 1 fuel 0 chunks = none := by
    intro fuel
    induction fuel with
    | zero => intro chunks; rfl
    | succ n ih =>
      intro chunks
      have h1 : ((0 : ℤ) < (([ 'a', 'b' ] : List Char).length : ℤ)) := by norm_num
      simp only [swcLoop, List.length_cons, List.length_nil]
      norm_num [pySlice, stripL, pyWs]
      exact ih _
  exact fun fuel => key fuel []

/-- The flag list produced by the scanner fold grows by exactly one entry per
matched pattern. -/
theorem detect_foldl_flags_len (search : String → String → Option String) (t : String) :
    ∀ (ps : List (String × ℕ)) (acc : ℕ × List RiskFlag × List String),
      ((ps.foldl (detectStep search t) acc).2.1).length
        = acc.2.1.length + (ps.filter (fun pw => (search pw.1 t).isSome)).length := by
  intro ps
  induction ps with
  | nil => intro acc; simp
  | cons p rest ih =>
    intro acc
    rw [List.foldl_cons, ih]
    rcases h : search p.1 t with _ | m
    · simp [List.filter_cons, detectStep, h]
    · simp only [List.filter_cons, h, Option.isSome_some, detectStep]
      simp
      omega

/-- The running max score never decreases along the scanner fold. -/
theorem detect_foldl_score_mono (search : String → String → Option String) (t : String) :
    ∀ (ps : List (String × ℕ)) (acc : ℕ × List RiskFlag × List String),
      acc.1 ≤ (ps.foldl (detectStep search t) acc).1 := by
  intro ps
  induction ps with
  | nil => intro acc; simp
  | cons p rest ih =>
    intro acc
    rw [List.foldl_cons]
    refine le_trans ?_ (ih _)
    rcases h : search p.1 t with _ | m
    · simp [detectStep, h]
    · simp [detectStep, h]

/-- The scanner score is bounded by any bound on the table weights. -/
theorem detect_foldl_score_le (search : String → String → Option String) (t : String) :
    ∀ (ps : List (String × ℕ)) (acc : ℕ × List RiskFlag × List String),
      (∀ pw ∈ ps, pw.2 ≤ 5) → acc.1 ≤ 5 →
      (ps.foldl (detectStep search t) acc).1 ≤ 5 := by
  intro ps
  induction ps with
  | nil => intro acc _ hacc; simpa using hacc
  | cons p rest ih =>
    intro acc hall hacc
    rw [List.foldl_cons]
    refine ih _ (fun pw hpw => hall pw (List.mem_cons_of_mem _ hpw)) ?_
    rcases h : search p.1 t with _ | m
    · simpa [detectStep, h] using hacc
    · simp only [detectStep, h]
      exact max_le hacc (hall p (List.mem_cons_self p rest))

/-- The scanner score dominates the weight of every matched pattern. -/
theorem detect_foldl_score_ge (search : String → String → Option String) (t : String) :
    ∀ (ps : List (String × ℕ)) (acc : ℕ × List RiskFlag × List String) (pw : String × ℕ),
      pw ∈ ps → (search pw.1 t).isSome →
      pw.2 ≤ (ps.foldl (detectStep search t) acc).1 := by
  intro ps
  induction ps with
  | nil => intro acc pw h; exact absurd h (List.not_mem_nil _)
  | cons p rest ih =>
    intro acc pw hpw hmatch
    rw [List.foldl_cons]
    rcases List.mem_cons.mp hpw with rfl | hmem
    · refine le_trans ?_ (detect_foldl_score_mono search t rest _)
      rcases h : search pw.1 t with _ | m
      · rw [h] at hmatch; exact absurd hmatch (by simp)
      · simp [detectStep, h]
    · exact ih _ pw hmem hmatch

/-- A list whose weights all lie in `\x7b5, 3, 1\x7d` is partitioned by its
weight-5, weight-3 and weight-1 sublists. -/
theorem count_partition_weights :
    ∀ ps : List (String × ℕ), (∀ pw ∈ ps, pw.2 = 5 ∨ pw.2 = 3 ∨ pw.2 = 1) →
      ps.length = (ps.filter (fun pw => pw.2 == 5)).length
        + (ps.filter (fun pw => pw.2 == 3)).length
        + (ps.filter (fun pw => pw.2 == 1)).length := by
  intro ps
  induction ps with
  | nil => intro _; simp
  | cons p rest ih =>
    intro hall
    have hrest := ih (fun pw hpw => hall pw (List.mem_cons_of_mem _ hpw))
    rcases hall p (List.mem_cons_self p rest) with h | h | h <;>
      simp [List.filter_cons, h, List.length_cons, hrest] <;> omega

/-- C3: whenever exactly one weight-5 (HIGH) pattern of the scanner table
matches a chunk together with `n` weight-1 (LOW) patterns and no weight-3
pattern, `detect_clause_risk_and_loopholes` reports risk level HIGH (maximum
matched weight, not a sum) and records exactly `1 + n` flags, one per matched
pattern. -/
theorem c3_scanner_max_wins (search : String → String → Option String) (t : String) (n : ℕ)
    (h5 : ((RISK_KEYWORDS.filter (fun pw => (search pw.1 t).isSome)).filter
        (fun pw => pw.2 == 5)).length = 1)
    (h3 : ((RISK_KEYWORDS.filter (fun pw => (search pw.1 t).isSome)).filter
        (fun pw => pw.2 == 3)).length = 0)
    (h1 : ((RISK_KEYWORDS.filter (fun pw => (search pw.1 t).isSome)).filter
        (fun pw => pw.2 == 1)).length = n) :
    (detect_clause_risk_and_loopholes search t).1 = "HIGH"
    ∧ (detect_clause_risk_and_loopholes search t).2.1.length = 1 + n := by
  have hne : (RISK_KEYWORDS.filter (fun pw => (search pw.1 t).isSome)).filter
      (fun pw => pw.2 == 5) ≠ [] := by
    intro h
    rw [h] at h5
    simp at h5
  obtain ⟨pw, hpwmem⟩ := List.exists_mem_of_ne_nil _ hne
  have hpw5 : pw.2 = 5 := by
    have := (List.mem_filter.mp hpwmem).2
    simpa using this
  have hpwM := (List.mem_filter.mp hpwmem).1
  have hpwK : pw ∈ RISK_KEYWORDS := (List.mem_filter.mp hpwM).1
  have hpwS : (search pw.1 t).isSome := by
    have := (List.mem_filter.mp hpwM).2
    simpa using this
  have hscore_ge : 5 ≤ (RISK_KEYWORDS.foldl (detectStep search t) (0, [], [])).1 := by
    have := detect_foldl_score_ge search t RISK_KEYWORDS (0, [], []) pw hpwK hpwS
    omega
  have hscore_le : (RISK_KEYWORDS.foldl (detectStep search t) (0, [], [])).1 ≤ 5 := by
    refine detect_foldl_score_le search t RISK_KEYWORDS (0, [], []) ?_ (by norm_num)
    decide
  have hscore : (RISK_KEYWORDS.foldl (detectStep search t) (0, [], [])).1 = 5 := by omega
  constructor
  · simp [detect_clause_risk_and_loopholes, hscore]
  · have hlen := detect_foldl_flags_len search t RISK_KEYWORDS (0, [], [])
    have hpart : (RISK_KEYWORDS.filter (fun pw => (search pw.1 t).isSome)).length = 1 + 0 + n := by
      rw [← h5, ← h3, ← h1]
      apply count_partition_weights
      intro q hq
      have hqK : q ∈ RISK_KEYWORDS := (List.mem_filter.mp hq).1
      have hall : ∀ r ∈ RISK_KEYWORDS, r.2 = 5 ∨ r.2 = 3 ∨ r.2 = 1 := by decide
      exact hall q hqK
    simp only [detect_clause_risk_and_loopholes]
    rw [hlen, hpart]
    simp

/-- Witness for C3 at a concrete oracle: one HIGH match plus one LOW match
yields level HIGH and two flags. -/
theorem c3_scanner_max_wins_witness :
    (detect_clause_risk_and_loopholes searchW "some clause").1 = "HIGH"
    ∧ (detect_clause_risk_and_loopholes searchW "some clause").2.1.length = 1 + 1 :=
  c3_scanner_max_wins searchW "some clause" 1 (by decide) (by decide) (by decide)

/-- Dropping a prefix by `p` twice is the same as dropping it once. -/
theorem dropWhile_dropWhile (p : Char → Bool) :
    ∀ x : List Char, (x.dropWhile p).dropWhile p = x.dropWhile p := by
  intro x
  induction x with
  | nil => rfl
  | cons a t ih =>
    by_cases h : p a
    · simp [List.dropWhile_cons, h, ih]
    · simp [List.dropWhile_cons, h]

/-- Helper: the two nested append-if-positive steps of the source equal the
single append of the specification with integer-difference counts. -/
theorem append_missing_closers (t : List Char) (ob cb obk cbk : ℕ) :
    (let t1 := if cbk < obk then t ++ List.replicate (obk - cbk) rbrackC else t
     if cb < ob then t1 ++ List.replicate (ob - cb) rbraceC else t1)
    = t ++ List.replicate ((obk : ℤ) - (cbk : ℤ)).toNat rbrackC
        ++ List.replicate ((ob : ℤ) - (cb : ℤ)).toNat rbraceC := by
  have h1 : ((obk : ℤ) - (cbk : ℤ)).toNat = obk - cbk := by omega
  have h2 : ((ob : ℤ) - (cb : ℤ)).toNat = ob - cb := by omega
  rw [h1, h2]
  rcases Nat.lt_or_ge cbk obk with hk | hk
  · rcases Nat.lt_or_ge cb ob with hb | hb
    · simp [hk, hb, List.append_assoc]
    · have h4 : ob - cb = 0 := by omega
      simp [hk, Nat.not_lt.mpr hb, h4, List.append_assoc]
  · have h3 : obk - cbk = 0 := by omega
    rcases Nat.lt_or_ge cb ob with hb | hb
    · simp [Nat.not_lt.mpr hk, hb, h3, List.append_assoc]
    · have h4 : ob - cb = 0 := by omega
      simp [Nat.not_lt.mpr hk, Nat.not_lt.mpr hb, h3, h4, List.append_assoc]

/-- The source truncation repair coincides with the repair as the
specification words it. -/
theorem fix_incomplete_json_agrees_spec (s : String) :
    fix_incomplete_json s = fix_incomplete_json_spec s := by
  simp only [fix_incomplete_json, fix_incomplete_json_spec, stripDanglingComma]
  have hrev : (stripL s.data).reverse.dropWhile pyWs = (stripL s.data).reverse := by
    simp only [stripL, List.reverse_reverse]
    exact dropWhile_dropWhile pyWs _
  rw [hrev]
  have hlast : (stripL s.data).getLast? = (stripL s.data).reverse.head? := by
    simp [List.head?_reverse]
  rcases hr : (stripL s.data).reverse with _ | ⟨c, rest'⟩
  · have hnil : stripL s.data = [] := by
      have := congrArg List.reverse hr
      simpa using this
    simp only [hr, hlast, hnil, List.head?_nil]
    exact congrArg (fun l => String.mk (removeTrailingCommasL l))
      (append_missing_closers [] _ _ _ _)
  · have ht0 : stripL s.data = rest'.reverse ++ [c] := by
      have := congrArg List.reverse hr
      simpa using this
    simp only [hr, hlast, List.head?_cons]
    by_cases hc : c = ','
    · simp only [hc, if_pos rfl]
      have hdl : (stripL s.data).dropLast = rest'.reverse := by
        rw [ht0]
        exact List.dropLast_concat
      rw [hdl]
      exact congrArg (fun l => String.mk (removeTrailingCommasL l))
        (append_missing_closers rest'.reverse _ _ _ _)
    · simp only [if_neg hc]
      exact congrArg (fun l => String.mk (removeTrailingCommasL l))
        (append_missing_closers (stripL s.data) _ _ _ _)

/-- C4: the truncation repair of `parse_ai_json_response` behaves exactly as
specified — strip a dangling comma, append `count('[') − count(']')` closing
brackets then `count('\x7b') − count('\x7d')` closing braces, strip commas
left before closers — and the payload `\x7b"a": [1,2,3` is repaired to
`\x7b"a": [1,2,3]\x7d`, which parses as JSON. -/
theorem c4_truncation_repair :
    (∀ s : String, fix_incomplete_json s = fix_incomplete_json_spec s)
    ∧ clean_json_text "\x7b\"a\": [1,2,3" = "\x7b\"a\": [1,2,3]\x7d"
    ∧ jsonParses (clean_json_text "\x7b\"a\": [1,2,3") = true :=
  ⟨fix_incomplete_json_agrees_spec, by decide, by decide⟩

/-- Extracting the shape of a list that starts with `null`. -/
theorem startsNullB_shape {c : Char} {rest : List Char}
    (h : startsNullB (c :: rest) = true) :
    c = 'n' ∧ ∃ r, rest = 'u' :: 'l' :: 'l' :: r := by
  simp only [startsNullB, Bool.and_eq_true, decide_eq_true_eq] at h
  obtain ⟨hc, hu⟩ := h
  rcases rest with _ | ⟨u, rest1⟩
  · simp [startsULL] at hu
  rcases rest1 with _ | ⟨l1, rest2⟩
  · simp [startsULL, startsLL] at hu
  rcases rest2 with _ | ⟨l2, rest3⟩
  · simp [startsULL, startsLL, startsL1] at hu
  simp only [startsULL, startsLL, startsL1, Bool.and_eq_true, decide_eq_true_eq] at hu
  obtain ⟨h1, h2, h3⟩ := hu
  exact ⟨hc, rest3, by rw [h1, h2, h3]⟩

/-- Unfolding the `null` rewrite at a non-matching head. -/
theorem replNull_cons_ne (c : Char) (rest : List Char)
    (h : startsNullB (c :: rest) = false) :
    replNull (c :: rest) = c :: replNull rest := by
  rw [replNull.eq_def]
  split
  · next rest' heq =>
    rw [heq] at h
    simp [startsNullB, startsULL, startsLL, startsL1] at h
  · next c' rest2 hne heq =>
    cases heq
    rfl
  · next heq =>
    cases heq

/-- The sentinel replacement text contains no `null` and cannot start one. -/
theorem hasNull_rep_append (X : List Char) :
    hasNull ("\"Not specified\"".data ++ X) = hasNull X := by
  show hasNull ('"' :: 'N' :: 'o' :: 't' :: ' ' :: 's' :: 'p' :: 'e' :: 'c' :: 'i' :: 'f'
    :: 'i' :: 'e' :: 'd' :: '"' :: X) = hasNull X
  simp [hasNull, startsNullB, startsULL, startsLL, startsL1]

/-- The `null` rewrite preserves whether the text starts with `l`. -/
theorem replNull_startsL1 (t : List Char) : startsL1 (replNull t) = startsL1 t := by
  rcases t with _ | ⟨c, rest⟩
  · rfl
  · by_cases hs : startsNullB (c :: rest) = true
    · obtain ⟨rfl, r, rfl⟩ := startsNullB_shape hs
      rfl
    · rw [replNull_cons_ne _ _ (Bool.not_eq_true _ ▸ hs)]
      rfl

/-- The `null` rewrite preserves whether the text starts with `ll`. -/
theorem replNull_startsLL (t : List Char) : startsLL (replNull t) = startsLL t := by
  rcases t with _ | ⟨c, rest⟩
  · rfl
  · by_cases hs : startsNullB (c :: rest) = true
    · obtain ⟨rfl, r, rfl⟩ := startsNullB_shape hs
      rfl
    · rw [replNull_cons_ne _ _ (Bool.not_eq_true _ ▸ hs)]
      show (decide (c = 'l') && startsL1 (replNull rest)) = (decide (c = 'l') && startsL1 rest)
      rw [replNull_startsL1]

/-- The `null` rewrite preserves whether the text starts with `ull`. -/
theorem replNull_startsULL (t : List Char) : startsULL (replNull t) = startsULL t := by
  rcases t with _ | ⟨c, rest⟩
  · rfl
  · by_cases hs : startsNullB (c :: rest) = true
    · obtain ⟨rfl, r, rfl⟩ := startsNullB_shape hs
      rfl
    · rw [replNull_cons_ne _ _ (Bool.not_eq_true _ ▸ hs)]
      show (decide (c = 'u') && startsLL (replNull rest)) = (decide (c = 'u') && startsLL rest)
      rw [replNull_startsLL]

/-- After the `null` rewrite no occurrence of `null` remains anywhere. -/
theorem replNull_no_null (t : List Char) : hasNull (replNull t) = false := by
  have main : ∀ n (t : List Char), t.length ≤ n → hasNull (replNull t) = false := by
    intro n
    induction n with
    | zero =>
      intro t ht
      have : t = [] := List.eq_nil_of_length_eq_zero (Nat.le_zero.mp ht)
      rw [this]
      rfl
    | succ n ih =>
      intro t ht
      rcases t with _ | ⟨c, rest⟩
      · rfl
      · by_cases hs : startsNullB (c :: rest) = true
        · obtain ⟨rfl, r, rfl⟩ := startsNullB_shape hs
          show hasNull ("\"Not specified\"".data ++ replNull r) = false
          rw [hasNull_rep_append]
          refine ih r ?_
          simp only [List.length_cons] at ht
          omega
        · have hs' : startsNullB (c :: rest) = false := Bool.not_eq_true _ ▸ hs
          rw [replNull_cons_ne c rest hs']
          show (startsNullB (c :: replNull rest) || hasNull (replNull rest)) = false
          have hrest : hasNull (replNull rest) = false := by
            refine ih rest ?_
            simp only [List.length_cons] at ht
            omega
          rw [hrest, Bool.or_false]
          calc startsNullB (c :: replNull rest)
              = (decide (c = 'n') && startsULL (replNull rest)) := rfl
            _ = (decide (c = 'n') && startsULL rest) := by rw [replNull_startsULL]
            _ = startsNullB (c :: rest) := rfl
            _ = false := hs'
  exact main t.length t le_rfl

/-- C10 counterexample: the `null` rewrite is a plain substring replace, so a
payload whose quoted string value contains the letters `null` (here
`"annulled"`) is NOT left unchanged — contrary to the claim. -/
theorem c10_null_rewrite_counterexample :
    pyReplaceNull "\x7b\"k\": \"annulled\"\x7d" = "\x7b\"k\": \"an\"Not specified\"ed\"\x7d"
    ∧ pyReplaceNull "\x7b\"k\": \"annulled\"\x7d" ≠ "\x7b\"k\": \"annulled\"\x7d" := by
  constructor
  · decide
  · decide

/-- C10 (amended): before parsing, `parse_ai_json_response` rewrites every
occurrence of the character sequence `null` — including occurrences inside
quoted string values — to the quoted sentinel, so the rewritten payload never
contains the sequence `null`; in particular a literal `null` token becomes the
sentinel string. -/
theorem c10_null_rewrite_amended :
    (∀ s : String, hasNull (pyReplaceNull s).data = false)
    ∧ pyReplaceNull "\x7b\"v\": null\x7d" = "\x7b\"v\": \"Not specified\"\x7d" :=
  ⟨fun s => replNull_no_null s.data, by decide⟩

/-- Issue lists accumulated by the per-item check folds: the base issues
followed by each item's issues in order. -/
theorem foldl_issues_eq {α : Type} (f : α → ℤ × List String) :
    ∀ (xs : List α) (acc : ℤ × List String),
      (xs.foldl (fun a x => (a.1 - (f x).1, a.2 ++ (f x).2)) acc).2
        = acc.2 ++ (xs.map fun x => (f x).2).flatten := by
  intro xs
  induction xs with
  | nil => intro acc; simp
  | cons x rest ih =>
    intro acc
    rw [List.foldl_cons, ih]
    simp [List.append_assoc]

/-- The quality score always has the shape `max 0 (min 100 q)`. -/
theorem perform_score_shape (d : QContractData) :
    ∃ q : ℤ, (perform_quality_checks d).1 = max 0 (min 100 q) :=
  ⟨_, rfl⟩

/-- The issue list of `perform_quality_checks` is the concatenation of the
seven checks' issue lists in order. -/
theorem perform_issues_eq (d : QContractData) :
    (perform_quality_checks d).2
      = (party_check d.parties).2 ++ (product_check d.products).2
        ++ (financial_check d.financialTerms).2 ++ (timeline_check d.timeline).2
        ++ (risk_check d.risks).2 ++ (analytics_check d.analytics d.risks).2
        ++ (structure_check d.documentStructure).2 := rfl

/-- C5 counterexample: a document with exactly 1 party and a risk scored 150
whose remaining checks all pass scores 88 and passes the quality gate — it is
NOT rejected, so the claimed rejection of every such document fails. -/
theorem c5_quality_gate_counterexample :
    compensatedDoc.parties.length = 1
    ∧ (∃ r ∈ compensatedDoc.risks, r.riskScore = some 150)
    ∧ (perform_quality_checks compensatedDoc).1 = 88
    ∧ (quality_gate compensatedDoc).isOk = true := by
  refine ⟨by decide, ⟨{ riskScore := some 150, title := "Payment default exposure risk" },
    by decide, rfl⟩, by decide, by decide⟩

/-- C5 (amended): `perform_quality_checks` always returns a score in
`[0, 100]` and the gate of `extract_comprehensive_data` rejects exactly when
the score is below 70; any document with fewer than 2 parties has the
insufficient-parties violation enumerated, and any numeric risk score outside
`[20, 95]` (such as 150) has the invalid-risk-score violation enumerated — but
such a document is rejected only when the remaining defects push the score
below 70, as happens for the minimal such document (score 37, both violations
listed). -/
theorem c5_quality_gate_amended :
    (∀ d : QContractData,
      (0 ≤ (perform_quality_checks d).1 ∧ (perform_quality_checks d).1 ≤ 100)
      ∧ ((quality_gate d).isOk = false ↔ (perform_quality_checks d).1 < 70)
      ∧ (d.parties.length < 2 →
          "Insufficient parties identified (minimum 2 required)" ∈ (perform_quality_checks d).2)
      ∧ (∀ r ∈ d.risks, ∀ v : ℤ, r.riskScore = some v → (v < 20 ∨ v > 95) →
          ("Invalid risk score: " ++ intStr v ++ " (should be 20-95)")
            ∈ (perform_quality_checks d).2))
    ∧ ((quality_gate minimalRejectedDoc).isOk = false
       ∧ (perform_quality_checks minimalRejectedDoc).1 = 37
       ∧ "Insufficient parties identified (minimum 2 required)"
           ∈ (perform_quality_checks minimalRejectedDoc).2
       ∧ "Invalid risk score: 150 (should be 20-95)"
           ∈ (perform_quality_checks minimalRejectedDoc).2) := by
  refine ⟨fun d => ⟨?_, ?_, ?_, ?_⟩, by decide, by decide, by decide, by decide⟩
  · obtain ⟨q, hq⟩ := perform_score_shape d
    rw [hq]
    exact ⟨le_max_left 0 _, max_le (by norm_num) (min_le_left 100 q)⟩
  · by_cases h : (perform_quality_checks d).1 < 70
    · simp [quality_gate, h, Except.isOk, Except.toBool]
    · simp [quality_gate, h, Except.isOk, Except.toBool]
  · intro hlt
    rw [perform_issues_eq]
    have hp : "Insufficient parties identified (minimum 2 required)"
        ∈ (party_check d.parties).2 := by
      simp only [party_check, if_pos hlt]
      rw [foldl_issues_eq party_item_check]
      exact List.mem_append_left _ (List.mem_cons_self _ _)
    exact List.mem_append_left _ (List.mem_append_left _ (List.mem_append_left _
      (List.mem_append_left _ (List.mem_append_left _ (List.mem_append_left _ hp)))))
  · intro r hr v hv hout
    rw [perform_issues_eq]
    have hrk : ("Invalid risk score: " ++ intStr v ++ " (should be 20-95)")
        ∈ (risk_check d.risks).2 := by
      simp only [risk_check]
      rw [foldl_issues_eq risk_item_check]
      refine List.mem_append_right _ ?_
      refine List.mem_flatten.mpr ⟨(risk_item_check r).2, List.mem_map_of_mem _ hr, ?_⟩
      have hb : decide (v < 20 ∨ v > 95) = true := decide_eq_true hout
      simp only [risk_item_check, hv, scoreStr]
      rw [if_pos hb]
      exact List.mem_append_left _ (List.mem_cons_self _ _)
    exact List.mem_append_left _ (List.mem_append_left _ (List.mem_append_right _ hrk))

/-- Witness for C5 (amended) at the minimal rejected document: the
insufficient-parties hypothesis is discharged concretely. -/
theorem c5_quality_gate_amended_witness :
    "Insufficient parties identified (minimum 2 required)"
      ∈ (perform_quality_checks minimalRejectedDoc).2 :=
  ((c5_quality_gate_amended.1 minimalRejectedDoc).2.2.1 (by decide))

/-- Every party record produced by the reconciliation loop carries a legal
name that passed `is_valid_name`. -/
theorem convert_parties_aux_valid :
    ∀ (i : ℕ) (ps : List AIParty) (q : Party), q ∈ convert_ai_parties_aux i ps →
      is_valid_name q.legalName = true := by
  intro i ps
  induction ps generalizing i with
  | nil => intro q h; exact absurd h (List.not_mem_nil _)
  | cons p rest ih =>
    intro q hq
    simp only [convert_ai_parties_aux] at hq
    rcases List.mem_append.mp hq with h | h
    · by_cases h1 : p.isDict ∧ pyTruthy p.legal_name
      · rw [if_pos h1] at h
        by_cases h2 : is_valid_name (pyStrip (p.legal_name.getD "")) = true
        · rw [if_pos h2] at h
          rw [List.mem_singleton.mp h]
          exact h2
        · rw [if_neg h2] at h
          exact absurd h (List.not_mem_nil _)
      · rw [if_neg h1] at h
        exact absurd h (List.not_mem_nil _)
    · exact ih (i + 1) q h

/-- The reconciliation loop keeps exactly the accepted candidates. -/
theorem convert_parties_aux_len :
    ∀ (i : ℕ) (ps : List AIParty),
      (convert_ai_parties_aux i ps).length = (ps.filter party_accepted).length := by
  intro i ps
  induction ps generalizing i with
  | nil => rfl
  | cons p rest ih =>
    simp only [convert_ai_parties_aux, List.length_append, List.filter_cons]
    by_cases h1 : p.isDict ∧ pyTruthy p.legal_name
    · by_cases h2 : is_valid_name (pyStrip (p.legal_name.getD "")) = true
      · have hacc : party_accepted p = true := by
          simp only [party_accepted]
          rw [h1.1, h1.2, h2]
          rfl
        rw [if_pos h1, if_pos h2, hacc]
        simp [ih (i + 1)]
        omega
      · have hacc : party_accepted p = false := by
          have h2f : is_valid_name (pyStrip (p.legal_name.getD "")) = false := by
            revert h2
            cases is_valid_name (pyStrip (p.legal_name.getD "")) <;> simp
          simp only [party_accepted]
          rw [h1.1, h1.2, h2f]
          rfl
        rw [if_pos h1, if_neg h2, hacc]
        simp [ih (i + 1)]
    · have hacc : party_accepted p = false := by
        simp only [party_accepted]
        cases ha : p.isDict with
        | false => rfl
        | true =>
          cases hb : pyTruthy p.legal_name with
          | false => rfl
          | true => exact absurd ⟨ha, hb⟩ h1
      rw [if_neg h1, hacc]
      simp [ih (i + 1)]

/-- C6: `convert_ai_parties` accepts a candidate only if its (stripped) legal
name passes `is_valid_name` — longer than the minimum length, free of
placeholder substrings (case-insensitive), and carrying a legal-entity token
or a capitalized multi-word shape — and it raises whenever fewer than 2
candidates survive, never returning a party list of length below 2. -/
theorem c6_party_validation (ai_parties : List AIParty) :
    (∀ l, convert_ai_parties ai_parties = .ok l →
        (∀ q ∈ l, is_valid_name q.legalName = true) ∧ 2 ≤ l.length)
    ∧ ((ai_parties.filter party_accepted).length < 2 →
        ∃ e, convert_ai_parties ai_parties = .error e) := by
  constructor
  · intro l hl
    simp only [convert_ai_parties] at hl
    by_cases h : (convert_ai_parties_aux 0 ai_parties).length < 2
    · rw [if_pos h] at hl
      simp at hl
    · rw [if_neg h] at hl
      injection hl with h2
      subst h2
      refine ⟨fun q hq => convert_parties_aux_valid 0 ai_parties q hq, ?_⟩
      omega
  · intro hlt
    simp only [convert_ai_parties]
    rw [if_pos (by rw [convert_parties_aux_len]; exact hlt)]
    exact ⟨_, rfl⟩

/-- Witness for C6: the empty candidate list raises, and two valid candidates
survive with a party list of length 2. -/
theorem c6_party_validation_witness :
    (∃ e, convert_ai_parties ([] : List AIParty) = .error e)
    ∧ 2 ≤ (convert_ai_parties_aux 0 twoPartiesInput).length :=
  ⟨(c6_party_validation []).2 (by decide),
   ((c6_party_validation twoPartiesInput).1 (convert_ai_parties_aux 0 twoPartiesInput) rfl).2⟩

/-- The risk-reconciliation loop raises whenever some titled item lacks a
numeric score. -/
theorem convert_risks_aux_err :
    ∀ (i : ℕ) (rs : List AIRisk),
      (∃ r ∈ rs, r.isDict = true ∧ pyTruthy r.risk_title = true
        ∧ rsNumeric r.risk_score = false) →
      ∃ e, convert_ai_risks_aux i rs = .error e := by
  intro i rs
  induction rs generalizing i with
  | nil =>
    intro h
    obtain ⟨r, hr, _⟩ := h
    exact absurd hr (List.not_mem_nil _)
  | cons p rest ih =>
    intro h
    obtain ⟨r, hr, hprops⟩ := h
    simp only [convert_ai_risks_aux]
    rcases List.mem_cons.mp hr with rfl | hmem
    · rw [if_pos ⟨hprops.1, hprops.2.1⟩]
      have hcond : (rsTruthy r.risk_score && rsNumeric r.risk_score) = false := by
        rw [hprops.2.2, Bool.and_false]
      rw [if_neg (by rw [hcond]; exact Bool.false_ne_true)]
      exact ⟨_, rfl⟩
    · by_cases h1 : p.isDict ∧ pyTruthy p.risk_title
      · rw [if_pos h1]
        obtain ⟨e, he⟩ := ih (i + 1) ⟨r, hmem, hprops⟩
        by_cases hc : (rsTruthy p.risk_score && rsNumeric p.risk_score) = true
        · rw [if_pos hc, he]
          exact ⟨e, rfl⟩
        · rw [if_neg hc]
          exact ⟨_, rfl⟩
      · rw [if_neg h1]
        exact ih (i + 1) ⟨r, hmem, hprops⟩

/-- Every risk record returned by the reconciliation loop has its score
clamped into `[20, 95]`. -/
theorem convert_risks_aux_ok_scores :
    ∀ (i : ℕ) (rs : List AIRisk) (l : List RiskOut),
      convert_ai_risks_aux i rs = .ok l → ∀ x ∈ l, 20 ≤ x.riskScore ∧ x.riskScore ≤ 95 := by
  intro i rs
  induction rs generalizing i with
  | nil =>
    intro l hl x hx
    simp only [convert_ai_risks_aux] at hl
    injection hl with h
    subst h
    exact absurd hx (List.not_mem_nil _)
  | cons p rest ih =>
    intro l hl x hx
    simp only [convert_ai_risks_aux] at hl
    by_cases h1 : p.isDict ∧ pyTruthy p.risk_title
    · rw [if_pos h1] at hl
      by_cases hc : (rsTruthy p.risk_score && rsNumeric p.risk_score) = true
      · rw [if_pos hc] at hl
        cases htail : convert_ai_risks_aux (i + 1) rest with
        | ok tail =>
          rw [htail] at hl
          injection hl with h
          subst h
          rcases List.mem_cons.mp hx with rfl | hmem
          · exact ⟨le_max_left 20 _, max_le (by norm_num) (min_le_left 95 _)⟩
          · exact ih (i + 1) tail htail x hmem
        | error e => rw [htail] at hl; simp at hl
      · rw [if_neg hc] at hl
        simp at hl
    · rw [if_neg h1] at hl
      exact ih (i + 1) l hl x hx

/-- C7: `convert_ai_risks` raises whenever any titled item lacks a numeric
`risk_score` (no default is synthesized), and every risk item of a
successfully returned list carries an integer `riskScore` within `[20, 95]`. -/
theorem c7_risk_scores (ai_risks : List AIRisk) :
    ((∃ r ∈ ai_risks, r.isDict = true ∧ pyTruthy r.risk_title = true
        ∧ rsNumeric r.risk_score = false) →
      ∃ e, convert_ai_risks ai_risks = .error e)
    ∧ (∀ l, convert_ai_risks ai_risks = .ok l →
        ∀ x ∈ l, 20 ≤ x.riskScore ∧ x.riskScore ≤ 95) := by
  constructor
  · intro hex
    obtain ⟨e, he⟩ := convert_risks_aux_err 0 ai_risks hex
    simp only [convert_ai_risks]
    rw [he]
    exact ⟨e, rfl⟩
  · intro l hl
    simp only [convert_ai_risks] at hl
    cases haux : convert_ai_risks_aux 0 ai_risks with
    | ok risks =>
      rw [haux] at hl
      dsimp only [] at hl
      by_cases hz : risks.length = 0
      · rw [if_pos hz] at hl
        simp at hl
      · rw [if_neg hz] at hl
        injection hl with h
        subst h
        exact convert_risks_aux_ok_scores 0 ai_risks _ haux
    | error e => rw [haux] at hl; dsimp only [] at hl; simp at hl

/-- Witness for C7: a titled risk with a string score makes the whole
conversion raise. -/
theorem c7_risk_scores_witness :
    ∃ e, convert_ai_risks badRiskInput = .error e :=
  (c7_risk_scores badRiskInput).1 (by decide)

/-- A formatted date is never the empty string (it contains dashes). -/
theorem formatDate_ne_empty (ymd : ℤ × ℤ × ℤ) : formatDate ymd ≠ "" := by
  intro h
  have hd := congrArg String.data h
  simp only [formatDate] at hd
  have hd2 : ((((padNat 4 ymd.1.toNat).data ++ "-".data) ++ (padNat 2 ymd.2.1.toNat).data)
      ++ "-".data) ++ (padNat 2 ymd.2.2.toNat).data = [] := hd
  simp at hd2

/-- C8 counterexample: a payload with neither an expiration date nor an
effective date makes `parse_ai_json_response` silently default the expiration
to one year from today (here today = 2026-10-12), not to the `Not specified`
sentinel as claimed. -/
theorem c8_expiration_counterexample :
    calc_expiration_date {} (toDays (2026, 10, 12)) = "2027-10-12"
    ∧ ("2027-10-12" : String) ≠ "Not specified" := by
  exact ⟨by decide, by decide⟩

/-- C8 (amended): when the payload lacks an expiration date,
`parse_ai_json_response` derives it as `effective_date + term_years * 365`
days when the effective date and (possibly defaulted) term are truthy and
parseable, uses the `Not specified` sentinel when they are truthy but fail to
parse, and silently defaults to one year from today when the effective date
or term is missing/empty. -/
theorem c8_expiration_amended (cb : ContractBasics) (today : ℤ)
    (hno : cb.expiration_date = none) :
    (∀ eff ymd yrs, cb.effective_date = some eff → eff ≠ "" →
        cb.contract_term_years.getD "10" ≠ "" →
        parseYmd eff = some ymd →
        parseTermYears (cb.contract_term_years.getD "10") = some yrs →
        calc_expiration_date cb today = formatDay (toDays ymd + 365 * yrs))
    ∧ (∀ eff, cb.effective_date = some eff → eff ≠ "" →
        cb.contract_term_years.getD "10" ≠ "" →
        (parseYmd eff = none ∨ parseTermYears (cb.contract_term_years.getD "10") = none) →
        calc_expiration_date cb today = "Not specified")
    ∧ (¬ (pyTruthy cb.effective_date = true ∧ cb.contract_term_years.getD "10" ≠ "") →
        calc_expiration_date cb today = formatDay (today + 365)) := by
  have houter : (¬ pyTruthy cb.expiration_date ∨ cb.expiration_date = some "Not specified") := by
    rw [hno]
    left
    simp [pyTruthy]
  refine ⟨?_, ?_, ?_⟩
  · intro eff ymd yrs heff heffne hty hp1 hp2
    have hpt : pyTruthy cb.effective_date = true := by
      rw [heff]
      simp [pyTruthy, heffne]
    have hinner : pyTruthy cb.effective_date = true
        ∧ cb.contract_term_years.getD "10" ≠ "" := ⟨hpt, hty⟩
    simp only [calc_expiration_date]
    rw [if_pos houter, if_pos hinner, heff]
    simp only [Option.getD_some]
    rw [hp1, hp2]
    show (if formatDay (toDays ymd + 365 * yrs) = ""
        then formatDay (today + 365) else formatDay (toDays ymd + 365 * yrs))
      = formatDay (toDays ymd + 365 * yrs)
    have hne : formatDay (toDays ymd + 365 * yrs) ≠ "" := formatDate_ne_empty _
    rw [if_neg hne]
  · intro eff heff heffne hty hfail
    have hpt : pyTruthy cb.effective_date = true := by
      rw [heff]
      simp [pyTruthy, heffne]
    have hinner : pyTruthy cb.effective_date = true
        ∧ cb.contract_term_years.getD "10" ≠ "" := ⟨hpt, hty⟩
    simp only [calc_expiration_date]
    rw [if_pos houter, if_pos hinner, heff]
    simp only [Option.getD_some]
    rcases hfail with hf | hf
    · rw [hf]
      rfl
    · cases hp1 : parseYmd eff with
      | none => rfl
      | some ymd =>
        rw [hf]
        rfl
  · intro hcond
    simp only [calc_expiration_date]
    rw [if_pos houter, if_neg hcond, hno]

/-- Witness for C8 (amended): effective date 2020-01-15 with a 10-year term
yields 2020-01-15 + 3650 days = 2030-01-12. -/
theorem c8_expiration_amended_witness :
    calc_expiration_date
      { effective_date := some "2020-01-15", contract_term_years := some "10" } 0
      = "2030-01-12" := by
  have h := (c8_expiration_amended
      { effective_date := some "2020-01-15", contract_term_years := some "10" } 0 rfl).1
    "2020-01-15" (2020, 1, 15) 10 rfl (by decide) (by decide) (by decide) (by decide)
  rw [h]
  decide

/-- The base mapper tries the explicit JSON mapping, then the text-section
mapping, then the risk-derived mapping — the first non-empty wins. -/
theorem extract_clause_risk_map_eq (ai_data : Option AIData)
    (tm : Option (List (String × String × ℤ))) (tp : ℤ) :
    extract_clause_risk_map ai_data tm tp
      = (if crmJsonOf ai_data ≠ [] then crmJsonOf ai_data
         else if crmTextOf tm ≠ [] then crmTextOf tm
         else crmRisksOf ai_data tp) := by
  rcases ai_data with _ | d
  · rcases tm with _ | ms
    · simp [extract_clause_risk_map, crmJsonOf, crmTextOf, crmRisksOf]
    · by_cases h : crmFromText ms = [] <;>
        simp [extract_clause_risk_map, crmJsonOf, crmTextOf, crmRisksOf, h]
  · rcases tm with _ | ms
    · by_cases h1 : crmFromJson 0 d.clause_risk_mapping = []
      · by_cases h3 : crmFromRisks 0 tp (d.risk_factors.take 5) = [] <;>
          simp [extract_clause_risk_map, crmJsonOf, crmTextOf, crmRisksOf, h1, h3]
      · simp [extract_clause_risk_map, crmJsonOf, crmTextOf, crmRisksOf, h1]
    · by_cases h1 : crmFromJson 0 d.clause_risk_mapping = []
      · by_cases h2 : crmFromText ms = []
        · by_cases h3 : crmFromRisks 0 tp (d.risk_factors.take 5) = [] <;>
            simp [extract_clause_risk_map, crmJsonOf, crmTextOf, crmRisksOf, h1, h2, h3]
        · simp [extract_clause_risk_map, crmJsonOf, crmTextOf, crmRisksOf, h1, h2]
      · simp [extract_clause_risk_map, crmJsonOf, crmTextOf, crmRisksOf, h1]

/-- C9 counterexample: with an empty explicit mapping array, a titled risk
factor, and a recognized section heading (`Introduction`) present in the text,
the code returns the risk-derived entries — not the section-derived entries
the claimed priority order (sections before risks) requires. -/
theorem c9_clause_map_counterexample :
    pyIn (lowerS "Introduction") (lowerS "Introduction to the agreement") = true
    ∧ crmFromSections 0 3 "Introduction to the agreement" DOC_SECTIONS ≠ []
    ∧ c9AiData.clause_risk_mapping = []
    ∧ (extract_clause_risk_map_enhanced (some c9AiData) none none
        "Introduction to the agreement" 3).map (fun e => e.clause)
      = ["Risk Area 1: Payment default risk"]
    ∧ extract_clause_risk_map_enhanced (some c9AiData) none none
        "Introduction to the agreement" 3
      ≠ crmFromSections 0 3 "Introduction to the agreement" DOC_SECTIONS := by
  refine ⟨by decide, by decide, rfl, by decide, by decide⟩

/-- C9 (amended): the clause-to-region mapper fills the map from the first
non-empty source in this priority order: (1) the explicit clause-risk-mapping
array of the AI payload (JSON, else the text-format mapping section), (2) else
one entry per top-5 risk item with synthetic page `min(i+1, total_pages)`,
(3) else one entry per recognized document section heading found in the
text. -/
theorem c9_clause_map_priority_amended (ai_data : Option AIData)
    (tm : Option (List (String × String × ℤ))) (full_text : String) (total_pages : ℤ) :
    (crmJsonOf ai_data ≠ [] →
      extract_clause_risk_map_enhanced ai_data tm none full_text total_pages
        = crmJsonOf ai_data)
    ∧ (crmJsonOf ai_data = [] → crmTextOf tm ≠ [] →
      extract_clause_risk_map_enhanced ai_data tm none full_text total_pages
        = crmTextOf tm)
    ∧ (crmJsonOf ai_data = [] → crmTextOf tm = [] → crmRisksOf ai_data total_pages ≠ [] →
      extract_clause_risk_map_enhanced ai_data tm none full_text total_pages
        = crmRisksOf ai_data total_pages)
    ∧ (crmJsonOf ai_data = [] → crmTextOf tm = [] → crmRisksOf ai_data total_pages = [] →
      extract_clause_risk_map_enhanced ai_data tm none full_text total_pages
        = crmFromSections 0 total_pages full_text DOC_SECTIONS) := by
  refine ⟨?_, ?_, ?_, ?_⟩
  · intro h1
    simp [extract_clause_risk_map_enhanced, extract_clause_risk_map_eq, h1]
  · intro h1 h2
    simp [extract_clause_risk_map_enhanced, extract_clause_risk_map_eq, h1, h2]
  · intro h1 h2 h3
    simp [extract_clause_risk_map_enhanced, extract_clause_risk_map_eq, h1, h2, h3]
  · intro h1 h2 h3
    simp [extract_clause_risk_map_enhanced, extract_clause_risk_map_eq, h1, h2, h3]

/-- Witness for C9 (amended): at the counterexample input the risk-derived
branch fires. -/
theorem c9_clause_map_priority_amended_witness :
    extract_clause_risk_map_enhanced (some c9AiData) none none
      "Introduction to the agreement" 3
      = crmRisksOf (some c9AiData) 3 :=
  (c9_clause_map_priority_amended (some c9AiData) none
      "Introduction to the agreement" 3).2.2.1 rfl rfl (by decide)

end Leagle
